import Mathlib

/-!
Shallow embedding of examples/create_forcing_files.py: the ForcingFileGenerator
class that builds boundary-condition and river forcing arrays for FjordsSim.

Machine floats are modelled as exact rationals.  The numpy arrays of shape
(num_steps, Nz, Ny, Nx), indexed [t, k, j, i], are modelled as total functions
Int → Int → Int → Int → ℚ (Python integer indices); cells outside the array
extent are irrelevant to every statement below.  File output is modelled as a
trace of write events, so that statements about what has been written before a
failure can be made.
-/

/-- Python range(a, b) for integers: the list a, a+1, ..., b-1 (empty when b ≤ a). -/
def intRange (a b : Int) : List Int :=
  List.map (fun m : Nat => a + (m : Int)) (List.range (b - a).toNat)

/-- numpy arange(start, stop, step) over exact rationals, for step ≠ 0: the list
of start + m * step for 0 ≤ m < ⌈(stop - start) / step⌉. -/
def np_arange (start stop step : ℚ) : List ℚ :=
  List.map (fun m : Nat => start + (m : ℚ) * step)
    (List.range (Int.ceil ((stop - start) / step)).toNat)

/-- Errors that __init__ can raise: numpy arange raises a division-by-zero
error when its step argument is zero.  No other failure exists in __init__;
in particular no dimension validation is performed. -/
inductive InitError where
  | zeroStep : InitError
  deriving DecidableEq

/-- State stored by ForcingFileGenerator.__init__ : grid dimensions, time
parameters, and the derived times array (seconds). -/
structure ForcingFileGenerator where
  Nx : Int
  Ny : Int
  Nz : Int
  start_date : String
  time_step_hours : ℚ
  num_steps : Int
  times : List ℚ

/-- ForcingFileGenerator.__init__ : stores all parameters unvalidated and
derives times = np.arange(0, num_steps * time_step_hours * 3600,
time_step_hours * 3600). -/
def mkForcingFileGenerator (Nx Ny Nz : Int) (start_date : String)
    (time_step_hours : ℚ) (num_steps : Int) :
    Except InitError ForcingFileGenerator :=
  if time_step_hours * 3600 = 0 then Except.error InitError.zeroStep
  else Except.ok ⟨Nx, Ny, Nz, start_date, time_step_hours, num_steps,
    np_arange 0 ((num_steps : ℚ) * time_step_hours * 3600) (time_step_hours * 3600)⟩

/-- One tracer's entry of tracers_dict: the optional boundary values under the
keys west, east, north, south and the optional relaxation scale under the key
lambda.  Absent keys are replaced by defaults via dict.get in the code. -/
structure TracerConfig where
  west : Option ℚ
  east : Option ℚ
  north : Option ℚ
  south : Option ℚ
  lam : Option ℚ

/-- west_val = tracer_config.get('west', -999.0). -/
def west_val (c : TracerConfig) : ℚ := c.west.getD (-999)

/-- east_val = tracer_config.get('east', -999.0). -/
def east_val (c : TracerConfig) : ℚ := c.east.getD (-999)

/-- north_val = tracer_config.get('north', -999.0). -/
def north_val (c : TracerConfig) : ℚ := c.north.getD (-999)

/-- south_val = tracer_config.get('south', -999.0). -/
def south_val (c : TracerConfig) : ℚ := c.south.getD (-999)

/-- lambda_val = tracer_config.get('lambda', 1e-4). -/
def lambda_val (c : TracerConfig) : ℚ := c.lam.getD (1 / 10000)

/-- The pair of per-tracer arrays built by create_boundary_file: data (the
boundary value array, initialized to -999.0) and data_lambda (the relaxation
rate array, initialized to 0.0). -/
structure BoundaryField where
  data : Int → Int → Int → Int → ℚ
  data_lambda : Int → Int → Int → Int → ℚ

/-- The slice assignment data[t, k, :, i] = v restricted to rows 0 ≤ j < Ny. -/
def writeCol (Ny t k i : Int) (v : ℚ) (f : Int → Int → Int → Int → ℚ) :
    Int → Int → Int → Int → ℚ :=
  fun t' k' j' i' =>
    if t' = t ∧ k' = k ∧ 0 ≤ j' ∧ j' < Ny ∧ i' = i then v else f t' k' j' i'

/-- The slice update data_lambda[t, k, :, i] = np.maximum(data_lambda[t, k, :, i], v). -/
def maxCol (Ny t k i : Int) (v : ℚ) (f : Int → Int → Int → Int → ℚ) :
    Int → Int → Int → Int → ℚ :=
  fun t' k' j' i' =>
    if t' = t ∧ k' = k ∧ 0 ≤ j' ∧ j' < Ny ∧ i' = i then max (f t' k' j' i') v
    else f t' k' j' i'

/-- The slice assignment data[t, k, j, :] = v restricted to columns 0 ≤ i < Nx. -/
def writeRow (Nx t k j : Int) (v : ℚ) (f : Int → Int → Int → Int → ℚ) :
    Int → Int → Int → Int → ℚ :=
  fun t' k' j' i' =>
    if t' = t ∧ k' = k ∧ j' = j ∧ 0 ≤ i' ∧ i' < Nx then v else f t' k' j' i'

/-- The slice update data_lambda[t, k, j, :] = np.maximum(data_lambda[t, k, j, :], v). -/
def maxRow (Nx t k j : Int) (v : ℚ) (f : Int → Int → Int → Int → ℚ) :
    Int → Int → Int → Int → ℚ :=
  fun t' k' j' i' =>
    if t' = t ∧ k' = k ∧ j' = j ∧ 0 ≤ i' ∧ i' < Nx then max (f t' k' j' i') v
    else f t' k' j' i'

/-- One column-direction loop body (west or east): for each column index i in
L, write the boundary value into data[t, k, :, i] and max-merge the weighted
rate w i into data_lambda[t, k, :, i]. -/
def colPass (Ny t k : Int) (v : ℚ) (w : Int → ℚ) (L : List Int)
    (A : BoundaryField) : BoundaryField :=
  L.foldl (fun B i => ⟨writeCol Ny t k i v B.data,
    maxCol Ny t k i (w i) B.data_lambda⟩) A

/-- One row-direction loop body (south or north): for each row index j in L,
write the boundary value into data[t, k, j, :] and max-merge the weighted rate
w j into data_lambda[t, k, j, :]. -/
def rowPass (Nx t k : Int) (v : ℚ) (w : Int → ℚ) (L : List Int)
    (A : BoundaryField) : BoundaryField :=
  L.foldl (fun B j => ⟨writeRow Nx t k j v B.data,
    maxRow Nx t k j (w j) B.data_lambda⟩) A

/-- Linear taper weight of the west boundary: weight = 1.0 - i / buffer_width. -/
def westWeight (bw i : Int) : ℚ := 1 - (i : ℚ) / (bw : ℚ)

/-- Linear taper weight of the east boundary:
weight = 1.0 - (Nx - 1 - i) / buffer_width. -/
def eastWeight (g : ForcingFileGenerator) (bw i : Int) : ℚ :=
  1 - ((g.Nx - 1 - i : Int) : ℚ) / (bw : ℚ)

/-- Linear taper weight of the south boundary: weight = 1.0 - j / buffer_width. -/
def southWeight (bw j : Int) : ℚ := 1 - (j : ℚ) / (bw : ℚ)

/-- Linear taper weight of the north boundary:
weight = 1.0 - (Ny - 1 - j) / buffer_width. -/
def northWeight (g : ForcingFileGenerator) (bw j : Int) : ℚ :=
  1 - ((g.Ny - 1 - j : Int) : ℚ) / (bw : ℚ)

/-- West boundary pass: if west_val > -990, loop i over
range(min(buffer_width, Nx)). -/
def applyWest (g : ForcingFileGenerator) (cfg : TracerConfig) (bw t k : Int)
    (A : BoundaryField) : BoundaryField :=
  if west_val cfg > -990 then
    colPass g.Ny t k (west_val cfg) (fun i => lambda_val cfg * westWeight bw i)
      (intRange 0 (min bw g.Nx)) A
  else A

/-- East boundary pass: if east_val > -990, loop i over
range(max(0, Nx - buffer_width), Nx). -/
def applyEast (g : ForcingFileGenerator) (cfg : TracerConfig) (bw t k : Int)
    (A : BoundaryField) : BoundaryField :=
  if east_val cfg > -990 then
    colPass g.Ny t k (east_val cfg) (fun i => lambda_val cfg * eastWeight g bw i)
      (intRange (max 0 (g.Nx - bw)) g.Nx) A
  else A

/-- South boundary pass: if south_val > -990, loop j over
range(min(buffer_width, Ny)). -/
def applySouth (g : ForcingFileGenerator) (cfg : TracerConfig) (bw t k : Int)
    (A : BoundaryField) : BoundaryField :=
  if south_val cfg > -990 then
    rowPass g.Nx t k (south_val cfg) (fun j => lambda_val cfg * southWeight bw j)
      (intRange 0 (min bw g.Ny)) A
  else A

/-- North boundary pass: if north_val > -990, loop j over
range(max(0, Ny - buffer_width), Ny). -/
def applyNorth (g : ForcingFileGenerator) (cfg : TracerConfig) (bw t k : Int)
    (A : BoundaryField) : BoundaryField :=
  if north_val cfg > -990 then
    rowPass g.Nx t k (north_val cfg) (fun j => lambda_val cfg * northWeight g bw j)
      (intRange (max 0 (g.Ny - bw)) g.Ny) A
  else A

/-- The body of the loop over (t, k): the four directional passes in the fixed
source order west, east, south, north. -/
def boundaryStep (g : ForcingFileGenerator) (cfg : TracerConfig) (bw t k : Int)
    (A : BoundaryField) : BoundaryField :=
  applyNorth g cfg bw t k (applySouth g cfg bw t k
    (applyEast g cfg bw t k (applyWest g cfg bw t k A)))

/-- The array-construction core of create_boundary_file for one tracer:
data = np.full(shape, -999.0), data_lambda = np.zeros(shape), then the nested
loops for t in range(num_steps), for k in range(Nz) applying the four
directional passes. -/
def buildBoundaryArrays (g : ForcingFileGenerator) (cfg : TracerConfig)
    (bw : Int) : BoundaryField :=
  (intRange 0 g.num_steps).foldl
    (fun A t => (intRange 0 g.Nz).foldl
      (fun B k => boundaryStep g cfg bw t k B) A)
    ⟨fun _ _ _ _ => -999, fun _ _ _ _ => 0⟩

/-- Does any in-extent cell of the 4-D array satisfy p. -/
def anyCell (g : ForcingFileGenerator) (p : Int → Int → Int → Int → Bool) : Bool :=
  (intRange 0 g.num_steps).any (fun t => (intRange 0 g.Nz).any (fun k =>
    (intRange 0 g.Ny).any (fun j => (intRange 0 g.Nx).any (fun i => p t k j i))))

/-- The statistics printed after writing a tracer: np.min(data[data > -990])
and np.min(data_lambda[data_lambda > 0]) raise a ValueError when the selection
is empty, so the statistics succeed exactly when both selections are nonempty. -/
def boundaryStats (g : ForcingFileGenerator) (A : BoundaryField) : Bool :=
  anyCell g (fun t k j i => decide (A.data t k j i > -990)) &&
  anyCell g (fun t k j i => decide (A.data_lambda t k j i > 0))

/-- File operations performed by create_boundary_file, in order. -/
inductive BEv where
  | createDataset : BEv
  | writeTimes : BEv
  | writeField : String → BoundaryField → BEv

/-- Failures of create_boundary_file after the arrays are built: the ValueError
raised by the empty-selection statistics reductions. -/
inductive BoundaryError where
  | statsError : BoundaryError
  deriving DecidableEq

/-- The loop over tracers_dict of create_boundary_file: build each tracer's
arrays, write them to the file, then compute the statistics (which may raise). -/
def boundaryTracerLoop (g : ForcingFileGenerator) (bw : Int) :
    List (String × TracerConfig) →
    List BEv × Except BoundaryError (List (String × BoundaryField))
  | [] => ([], Except.ok [])
  | (name, cfg) :: rest =>
    let A := buildBoundaryArrays g cfg bw
    if boundaryStats g A then
      let r := boundaryTracerLoop g bw rest
      (BEv.writeField name A :: r.1,
        Except.map (fun fs => (name, A) :: fs) r.2)
    else ([BEv.writeField name A], Except.error BoundaryError.statsError)

/-- create_boundary_file: create the dataset and time variable, then process
every tracer in order.  Returns the trace of file writes together with the
result (the per-tracer arrays, or the first error). -/
def create_boundary_file (g : ForcingFileGenerator)
    (tracers : List (String × TracerConfig)) (bw : Int) :
    List BEv × Except BoundaryError (List (String × BoundaryField)) :=
  let r := boundaryTracerLoop g bw tracers
  (BEv.createDataset :: BEv.writeTimes :: r.1, r.2)

/-- Normalization of one Python/numpy index against an axis extent: in-range
indices are kept, negative indices c with -extent ≤ c < 0 wrap to extent + c,
anything else raises an IndexError (modelled as none). -/
def normIdx (extent c : Int) : Option Int :=
  if 0 ≤ c ∧ c < extent then some c
  else if -extent ≤ c ∧ c < 0 then some (extent + c)
  else none

/-- Normalization of a river site (i, j, k) against (Nx, Ny, Nz). -/
def normLoc (g : ForcingFileGenerator) (loc : Int × Int × Int) :
    Option (Int × Int × Int) :=
  match normIdx g.Nx loc.1, normIdx g.Ny loc.2.1, normIdx g.Nz loc.2.2 with
  | some i, some j, some k => some (i, j, k)
  | _, _, _ => none

/-- The pair of per-tracer arrays built by create_river_file: flux_data
(initialized to 0.0) and value_data (initialized to -999.0). -/
structure RiverField where
  flux_data : Int → Int → Int → Int → ℚ
  value_data : Int → Int → Int → Int → ℚ

/-- The slice assignment a[:, k, j, i] = x for a normalized cell c = (i, j, k):
all time steps 0 ≤ t < num_steps are written. -/
def writeSite (n : Int) (c : Int × Int × Int) (x : ℚ)
    (f : Int → Int → Int → Int → ℚ) : Int → Int → Int → Int → ℚ :=
  fun t' k' j' i' =>
    if 0 ≤ t' ∧ t' < n ∧ k' = c.2.2 ∧ j' = c.2.1 ∧ i' = c.1 then x
    else f t' k' j' i'

/-- Errors of create_river_file: the missing-discharge KeyError, the two
mismatched-length assertions (the spec's MismatchedLengths; the name is
'discharge' or the offending tracer), and the numpy IndexError raised while
assigning a river site whose indices are out of range. -/
inductive RiverError where
  | missingDischarge : RiverError
  | mismatchedLengths : String → RiverError
  | indexError : RiverError
  deriving DecidableEq

/-- One iteration of the river loop: normalize the site indices and write
flux_data[:, k, j, i] = discharge and value_data[:, k, j, i] = tracer_val,
or fail with an IndexError. -/
def addSite (g : ForcingFileGenerator) (A : RiverField) (loc : Int × Int × Int)
    (q v : ℚ) : Option RiverField :=
  match normLoc g loc with
  | some c => some ⟨writeSite g.num_steps c q A.flux_data,
      writeSite g.num_steps c v A.value_data⟩
  | none => none

/-- The sites paired with their per-site discharge and tracer value, in input
order (enumerate(river_locations) with discharge_list and tracer_values
indexed by river_idx). -/
def siteTriples (locs : List (Int × Int × Int)) (qs vs : List ℚ) :
    List ((Int × Int × Int) × ℚ × ℚ) :=
  locs.zip (qs.zip vs)

/-- The loop over river sites for one tracer, starting from the initialized
arrays; the first site whose indices do not normalize raises an IndexError. -/
def buildRiverSites (g : ForcingFileGenerator) :
    RiverField → List ((Int × Int × Int) × ℚ × ℚ) →
    Except RiverError RiverField
  | A, [] => Except.ok A
  | A, s :: rest =>
    match addSite g A s.1 s.2.1 s.2.2 with
    | some A2 => buildRiverSites g A2 rest
    | none => Except.error RiverError.indexError

/-- File operations performed by create_river_file, in order. -/
inductive REv where
  | createDataset : REv
  | writeTimes : REv
  | writeFlux : String → REv
  | writeValue : String → REv
  deriving DecidableEq

/-- The loop over tracers of create_river_file: build the flux and value
arrays for each tracer and write them to the file; an IndexError aborts the
loop before the current tracer's variables are written. -/
def riverTracerLoop (g : ForcingFileGenerator) (locs : List (Int × Int × Int))
    (qs : List ℚ) : List (String × List ℚ) →
    List REv × Except RiverError (List (String × RiverField))
  | [] => ([], Except.ok [])
  | (name, vs) :: rest =>
    match buildRiverSites g ⟨fun _ _ _ _ => 0, fun _ _ _ _ => -999⟩
        (siteTriples locs qs vs) with
    | Except.ok F =>
      let r := riverTracerLoop g locs qs rest
      (REv.writeFlux name :: REv.writeValue name :: r.1,
        Except.map (fun fs => (name, F) :: fs) r.2)
    | Except.error e => ([], Except.error e)

/-- create_river_file: create the dataset and time variable, look up the
discharge list, validate all input lengths (asserts), then process every
tracer (every key other than 'discharge') in order. -/
def create_river_file (g : ForcingFileGenerator) (locs : List (Int × Int × Int))
    (props : List (String × List ℚ)) :
    List REv × Except RiverError (List (String × RiverField)) :=
  match List.lookup "discharge" props with
  | none => ([REv.createDataset, REv.writeTimes],
      Except.error RiverError.missingDischarge)
  | some qs =>
    if qs.length = locs.length then
      match (props.filter (fun p => p.1 != "discharge")).find?
          (fun p => p.2.length != locs.length) with
      | some p => ([REv.createDataset, REv.writeTimes],
          Except.error (RiverError.mismatchedLengths p.1))
      | none =>
        let r := riverTracerLoop g locs qs
          (props.filter (fun p => p.1 != "discharge"))
        (REv.createDataset :: REv.writeTimes :: r.1, r.2)
    else ([REv.createDataset, REv.writeTimes],
      Except.error (RiverError.mismatchedLengths "discharge"))

/-- The west pass touches column i exactly when west is set and i lies in
range(min(buffer_width, Nx)). -/
def westApp (g : ForcingFileGenerator) (cfg : TracerConfig) (bw i : Int) : Prop :=
  west_val cfg > -990 ∧ 0 ≤ i ∧ i < min bw g.Nx

/-- The east pass touches column i exactly when east is set and i lies in
range(max(0, Nx - buffer_width), Nx). -/
def eastApp (g : ForcingFileGenerator) (cfg : TracerConfig) (bw i : Int) : Prop :=
  east_val cfg > -990 ∧ max 0 (g.Nx - bw) ≤ i ∧ i < g.Nx

/-- The south pass touches row j exactly when south is set and j lies in
range(min(buffer_width, Ny)). -/
def southApp (g : ForcingFileGenerator) (cfg : TracerConfig) (bw j : Int) : Prop :=
  south_val cfg > -990 ∧ 0 ≤ j ∧ j < min bw g.Ny

/-- The north pass touches row j exactly when north is set and j lies in
range(max(0, Ny - buffer_width), Ny). -/
def northApp (g : ForcingFileGenerator) (cfg : TracerConfig) (bw j : Int) : Prop :=
  north_val cfg > -990 ∧ max 0 (g.Ny - bw) ≤ j ∧ j < g.Ny

instance (g : ForcingFileGenerator) (cfg : TracerConfig) (bw i : Int) :
    Decidable (westApp g cfg bw i) :=
  inferInstanceAs (Decidable (west_val cfg > -990 ∧ 0 ≤ i ∧ i < min bw g.Nx))

instance (g : ForcingFileGenerator) (cfg : TracerConfig) (bw i : Int) :
    Decidable (eastApp g cfg bw i) :=
  inferInstanceAs (Decidable (east_val cfg > -990 ∧ max 0 (g.Nx - bw) ≤ i ∧ i < g.Nx))

instance (g : ForcingFileGenerator) (cfg : TracerConfig) (bw j : Int) :
    Decidable (southApp g cfg bw j) :=
  inferInstanceAs (Decidable (south_val cfg > -990 ∧ 0 ≤ j ∧ j < min bw g.Ny))

instance (g : ForcingFileGenerator) (cfg : TracerConfig) (bw j : Int) :
    Decidable (northApp g cfg bw j) :=
  inferInstanceAs (Decidable (north_val cfg > -990 ∧ max 0 (g.Ny - bw) ≤ j ∧ j < g.Ny))

/-- A cell (j, i) lies in the buffer zone of at least one edge whose boundary
value is set. -/
def touchedCell (g : ForcingFileGenerator) (cfg : TracerConfig) (bw j i : Int) : Prop :=
  westApp g cfg bw i ∨ eastApp g cfg bw i ∨ southApp g cfg bw j ∨ northApp g cfg bw j

instance (g : ForcingFileGenerator) (cfg : TracerConfig) (bw j i : Int) :
    Decidable (touchedCell g cfg bw j i) :=
  inferInstanceAs (Decidable (_ ∨ _ ∨ _ ∨ _))

/-- The relaxation-rate contributions lambda_val * weight of the edges whose
buffer zone contains the cell (j, i), listed in processing order. -/
def edgeRates (g : ForcingFileGenerator) (cfg : TracerConfig) (bw j i : Int) :
    List ℚ :=
  (if westApp g cfg bw i then [lambda_val cfg * westWeight bw i] else []) ++
  (if eastApp g cfg bw i then [lambda_val cfg * eastWeight g bw i] else []) ++
  (if southApp g cfg bw j then [lambda_val cfg * southWeight bw j] else []) ++
  (if northApp g cfg bw j then [lambda_val cfg * northWeight g bw j] else [])

/-- The boundary values of the edges whose buffer zone contains the cell
(j, i), listed in processing order west, east, south, north. -/
def edgeValues (g : ForcingFileGenerator) (cfg : TracerConfig) (bw j i : Int) :
    List ℚ :=
  (if westApp g cfg bw i then [west_val cfg] else []) ++
  (if eastApp g cfg bw i then [east_val cfg] else []) ++
  (if southApp g cfg bw j then [south_val cfg] else []) ++
  (if northApp g cfg bw j then [north_val cfg] else [])

/-- Closed form of the final data array at an in-extent cell: the value of the
last edge in processing order whose set buffer zone contains the cell, else
the fill value -999. -/
def vClosed (g : ForcingFileGenerator) (cfg : TracerConfig) (bw j i : Int) : ℚ :=
  if northApp g cfg bw j then north_val cfg
  else if southApp g cfg bw j then south_val cfg
  else if eastApp g cfg bw i then east_val cfg
  else if westApp g cfg bw i then west_val cfg
  else -999

/-- Closed form of the final data_lambda array at an in-extent cell: the fold
of max over the applicable contributions, starting from the fill value 0. -/
def rClosed (g : ForcingFileGenerator) (cfg : TracerConfig) (bw j i : Int) : ℚ :=
  (edgeRates g cfg bw j i).foldl max 0

/-- A small concrete generator used by witness theorems. -/
def gEx : ForcingFileGenerator := ⟨1, 1, 1, "2024-01-01", 1, 1, [0]⟩

/-- A tracer configuration with only west set, used by witness theorems. -/
def cfgWest : TracerConfig := ⟨some 10, none, none, none, some 1⟩

/-- A tracer configuration with west and south set, used by witness theorems. -/
def cfgWS : TracerConfig := ⟨some 10, none, none, some 11, some 1⟩

/-- Whether a constructor call returned ok (did not raise). -/
def initOk : Except InitError ForcingFileGenerator → Bool
  | Except.ok _ => true
  | Except.error _ => false

/-- The payload (discharge, tracer value) of the last-indexed site triple
whose normalized location is the cell (i, j, k), if any: the survivor of the
last-write-wins loop. -/
def lastHit (g : ForcingFileGenerator) (i j k : Int)
    (ts : List ((Int × Int × Int) × ℚ × ℚ)) : Option (ℚ × ℚ) :=
  ts.foldl (fun acc s =>
    if normLoc g s.1 = some (i, j, k) then some s.2 else acc) none

/-- The payload of the last-indexed site triple whose stated coordinates equal
(i, j, k), if any. -/
def lastSite (i j k : Int) (ts : List ((Int × Int × Int) × ℚ × ℚ)) :
    Option (ℚ × ℚ) :=
  ts.foldl (fun acc s => if s.1 = (i, j, k) then some s.2 else acc) none

theorem mem_intRange {a b i : Int} : i ∈ intRange a b ↔ a ≤ i ∧ i < b := by
  simp only [intRange, List.mem_map, List.mem_range]
  constructor
  · rintro ⟨m, hm, rfl⟩
    omega
  · rintro ⟨h1, h2⟩
    exact ⟨(i - a).toNat, by omega, by omega⟩

theorem intRange_nodup (a b : Int) : (intRange a b).Nodup := by
  simp only [intRange]
  refine List.Nodup.map ?_ (List.nodup_range _)
  intro x y h
  simp only at h
  omega

theorem colPass_data (Ny t k : Int) (v : ℚ) (w : Int → ℚ) (L : List Int)
    (hL : L.Nodup) (A : BoundaryField) (t' k' j' i' : Int) :
    (colPass Ny t k v w L A).data t' k' j' i' =
      if t' = t ∧ k' = k ∧ 0 ≤ j' ∧ j' < Ny ∧ i' ∈ L then v
      else A.data t' k' j' i' := by
  induction L generalizing A with
  | nil => simp [colPass]
  | cons x L ih =>
    have hstep : colPass Ny t k v w (x :: L) A = colPass Ny t k v w L
        ⟨writeCol Ny t k x v A.data, maxCol Ny t k x (w x) A.data_lambda⟩ := rfl
    rw [hstep, ih (List.Nodup.of_cons hL)]
    simp only [writeCol, List.mem_cons]
    by_cases h1 : t' = t ∧ k' = k ∧ 0 ≤ j' ∧ j' < Ny
    · by_cases h2 : i' ∈ L
      · rw [if_pos ⟨h1.1, h1.2.1, h1.2.2.1, h1.2.2.2, h2⟩,
          if_pos ⟨h1.1, h1.2.1, h1.2.2.1, h1.2.2.2, Or.inr h2⟩]
      · by_cases h3 : i' = x
        · rw [if_neg (by tauto), if_pos ⟨h1.1, h1.2.1, h1.2.2.1, h1.2.2.2, h3⟩,
            if_pos ⟨h1.1, h1.2.1, h1.2.2.1, h1.2.2.2, Or.inl h3⟩]
        · rw [if_neg (by tauto), if_neg (by tauto), if_neg (by tauto)]
    · rw [if_neg (by tauto), if_neg (by tauto), if_neg (by tauto)]

theorem colPass_data_lambda (Ny t k : Int) (v : ℚ) (w : Int → ℚ) (L : List Int)
    (hL : L.Nodup) (A : BoundaryField) (t' k' j' i' : Int) :
    (colPass Ny t k v w L A).data_lambda t' k' j' i' =
      if t' = t ∧ k' = k ∧ 0 ≤ j' ∧ j' < Ny ∧ i' ∈ L then
        max (A.data_lambda t' k' j' i') (w i')
      else A.data_lambda t' k' j' i' := by
  induction L generalizing A with
  | nil => simp [colPass]
  | cons x L ih =>
    have hstep : colPass Ny t k v w (x :: L) A = colPass Ny t k v w L
        ⟨writeCol Ny t k x v A.data, maxCol Ny t k x (w x) A.data_lambda⟩ := rfl
    rw [hstep, ih (List.Nodup.of_cons hL)]
    simp only [maxCol, List.mem_cons]
    by_cases h1 : t' = t ∧ k' = k ∧ 0 ≤ j' ∧ j' < Ny
    · by_cases h2 : i' ∈ L
      · have h3 : ¬i' = x := fun h => (List.nodup_cons.mp hL).1 (h ▸ h2)
        rw [if_pos ⟨h1.1, h1.2.1, h1.2.2.1, h1.2.2.2, h2⟩, if_neg (by tauto),
          if_pos ⟨h1.1, h1.2.1, h1.2.2.1, h1.2.2.2, Or.inr h2⟩]
      · by_cases h3 : i' = x
        · rw [if_neg (by tauto), if_pos ⟨h1.1, h1.2.1, h1.2.2.1, h1.2.2.2, h3⟩,
            if_pos ⟨h1.1, h1.2.1, h1.2.2.1, h1.2.2.2, Or.inl h3⟩, h3]
        · rw [if_neg (by tauto), if_neg (by tauto), if_neg (by tauto)]
    · rw [if_neg (by tauto), if_neg (by tauto), if_neg (by tauto)]

theorem rowPass_data (Nx t k : Int) (v : ℚ) (w : Int → ℚ) (L : List Int)
    (hL : L.Nodup) (A : BoundaryField) (t' k' j' i' : Int) :
    (rowPass Nx t k v w L A).data t' k' j' i' =
      if t' = t ∧ k' = k ∧ j' ∈ L ∧ 0 ≤ i' ∧ i' < Nx then v
      else A.data t' k' j' i' := by
  induction L generalizing A with
  | nil => simp [rowPass]
  | cons x L ih =>
    have hstep : rowPass Nx t k v w (x :: L) A = rowPass Nx t k v w L
        ⟨writeRow Nx t k x v A.data, maxRow Nx t k x (w x) A.data_lambda⟩ := rfl
    rw [hstep, ih (List.Nodup.of_cons hL)]
    simp only [writeRow, List.mem_cons]
    by_cases h1 : t' = t ∧ k' = k ∧ 0 ≤ i' ∧ i' < Nx
    · by_cases h2 : j' ∈ L
      · rw [if_pos ⟨h1.1, h1.2.1, h2, h1.2.2.1, h1.2.2.2⟩,
          if_pos ⟨h1.1, h1.2.1, Or.inr h2, h1.2.2.1, h1.2.2.2⟩]
      · by_cases h3 : j' = x
        · rw [if_neg (by tauto), if_pos ⟨h1.1, h1.2.1, h3, h1.2.2.1, h1.2.2.2⟩,
            if_pos ⟨h1.1, h1.2.1, Or.inl h3, h1.2.2.1, h1.2.2.2⟩]
        · rw [if_neg (by tauto), if_neg (by tauto), if_neg (by tauto)]
    · rw [if_neg (by tauto), if_neg (by tauto), if_neg (by tauto)]

theorem rowPass_data_lambda (Nx t k : Int) (v : ℚ) (w : Int → ℚ) (L : List Int)
    (hL : L.Nodup) (A : BoundaryField) (t' k' j' i' : Int) :
    (rowPass Nx t k v w L A).data_lambda t' k' j' i' =
      if t' = t ∧ k' = k ∧ j' ∈ L ∧ 0 ≤ i' ∧ i' < Nx then
        max (A.data_lambda t' k' j' i') (w j')
      else A.data_lambda t' k' j' i' := by
  induction L generalizing A with
  | nil => simp [rowPass]
  | cons x L ih =>
    have hstep : rowPass Nx t k v w (x :: L) A = rowPass Nx t k v w L
        ⟨writeRow Nx t k x v A.data, maxRow Nx t k x (w x) A.data_lambda⟩ := rfl
    rw [hstep, ih (List.Nodup.of_cons hL)]
    simp only [maxRow, List.mem_cons]
    by_cases h1 : t' = t ∧ k' = k ∧ 0 ≤ i' ∧ i' < Nx
    · by_cases h2 : j' ∈ L
      · have h3 : ¬j' = x := fun h => (List.nodup_cons.mp hL).1 (h ▸ h2)
        rw [if_pos ⟨h1.1, h1.2.1, h2, h1.2.2.1, h1.2.2.2⟩, if_neg (by tauto),
          if_pos ⟨h1.1, h1.2.1, Or.inr h2, h1.2.2.1, h1.2.2.2⟩]
      · by_cases h3 : j' = x
        · rw [if_neg (by tauto), if_pos ⟨h1.1, h1.2.1, h3, h1.2.2.1, h1.2.2.2⟩,
            if_pos ⟨h1.1, h1.2.1, Or.inl h3, h1.2.2.1, h1.2.2.2⟩, h3]
        · rw [if_neg (by tauto), if_neg (by tauto), if_neg (by tauto)]
    · rw [if_neg (by tauto), if_neg (by tauto), if_neg (by tauto)]

theorem applyWest_data (g : ForcingFileGenerator) (cfg : TracerConfig)
    (bw t k : Int) (A : BoundaryField) (t' k' j' i' : Int) :
    (applyWest g cfg bw t k A).data t' k' j' i' =
      if t' = t ∧ k' = k ∧ 0 ≤ j' ∧ j' < g.Ny ∧ westApp g cfg bw i' then
        west_val cfg
      else A.data t' k' j' i' := by
  unfold applyWest
  by_cases hset : west_val cfg > -990
  · rw [if_pos hset, colPass_data _ _ _ _ _ _ (intRange_nodup _ _)]
    refine if_congr ?_ rfl rfl
    rw [mem_intRange]
    unfold westApp
    tauto
  · rw [if_neg hset, if_neg (fun hc => hset hc.2.2.2.2.1)]

theorem applyWest_data_lambda (g : ForcingFileGenerator) (cfg : TracerConfig)
    (bw t k : Int) (A : BoundaryField) (t' k' j' i' : Int) :
    (applyWest g cfg bw t k A).data_lambda t' k' j' i' =
      if t' = t ∧ k' = k ∧ 0 ≤ j' ∧ j' < g.Ny ∧ westApp g cfg bw i' then
        max (A.data_lambda t' k' j' i') (lambda_val cfg * westWeight bw i')
      else A.data_lambda t' k' j' i' := by
  unfold applyWest
  by_cases hset : west_val cfg > -990
  · rw [if_pos hset, colPass_data_lambda _ _ _ _ _ _ (intRange_nodup _ _)]
    refine if_congr ?_ rfl rfl
    rw [mem_intRange]
    unfold westApp
    tauto
  · rw [if_neg hset, if_neg (fun hc => hset hc.2.2.2.2.1)]

theorem applyEast_data (g : ForcingFileGenerator) (cfg : TracerConfig)
    (bw t k : Int) (A : BoundaryField) (t' k' j' i' : Int) :
    (applyEast g cfg bw t k A).data t' k' j' i' =
      if t' = t ∧ k' = k ∧ 0 ≤ j' ∧ j' < g.Ny ∧ eastApp g cfg bw i' then
        east_val cfg
      else A.data t' k' j' i' := by
  unfold applyEast
  by_cases hset : east_val cfg > -990
  · rw [if_pos hset, colPass_data _ _ _ _ _ _ (intRange_nodup _ _)]
    refine if_congr ?_ rfl rfl
    rw [mem_intRange]
    unfold eastApp
    tauto
  · rw [if_neg hset, if_neg (fun hc => hset hc.2.2.2.2.1)]

theorem applyEast_data_lambda (g : ForcingFileGenerator) (cfg : TracerConfig)
    (bw t k : Int) (A : BoundaryField) (t' k' j' i' : Int) :
    (applyEast g cfg bw t k A).data_lambda t' k' j' i' =
      if t' = t ∧ k' = k ∧ 0 ≤ j' ∧ j' < g.Ny ∧ eastApp g cfg bw i' then
        max (A.data_lambda t' k' j' i') (lambda_val cfg * eastWeight g bw i')
      else A.data_lambda t' k' j' i' := by
  unfold applyEast
  by_cases hset : east_val cfg > -990
  · rw [if_pos hset, colPass_data_lambda _ _ _ _ _ _ (intRange_nodup _ _)]
    refine if_congr ?_ rfl rfl
    rw [mem_intRange]
    unfold eastApp
    tauto
  · rw [if_neg hset, if_neg (fun hc => hset hc.2.2.2.2.1)]

theorem applySouth_data (g : ForcingFileGenerator) (cfg : TracerConfig)
    (bw t k : Int) (A : BoundaryField) (t' k' j' i' : Int) :
    (applySouth g cfg bw t k A).data t' k' j' i' =
      if t' = t ∧ k' = k ∧ southApp g cfg bw j' ∧ 0 ≤ i' ∧ i' < g.Nx then
        south_val cfg
      else A.data t' k' j' i' := by
  unfold applySouth
  by_cases hset : south_val cfg > -990
  · rw [if_pos hset, rowPass_data _ _ _ _ _ _ (intRange_nodup _ _)]
    refine if_congr ?_ rfl rfl
    rw [mem_intRange]
    unfold southApp
    tauto
  · rw [if_neg hset, if_neg (fun hc => hset hc.2.2.1.1)]

theorem applySouth_data_lambda (g : ForcingFileGenerator) (cfg : TracerConfig)
    (bw t k : Int) (A : BoundaryField) (t' k' j' i' : Int) :
    (applySouth g cfg bw t k A).data_lambda t' k' j' i' =
      if t' = t ∧ k' = k ∧ southApp g cfg bw j' ∧ 0 ≤ i' ∧ i' < g.Nx then
        max (A.data_lambda t' k' j' i') (lambda_val cfg * southWeight bw j')
      else A.data_lambda t' k' j' i' := by
  unfold applySouth
  by_cases hset : south_val cfg > -990
  · rw [if_pos hset, rowPass_data_lambda _ _ _ _ _ _ (intRange_nodup _ _)]
    refine if_congr ?_ rfl rfl
    rw [mem_intRange]
    unfold southApp
    tauto
  · rw [if_neg hset, if_neg (fun hc => hset hc.2.2.1.1)]

theorem applyNorth_data (g : ForcingFileGenerator) (cfg : TracerConfig)
    (bw t k : Int) (A : BoundaryField) (t' k' j' i' : Int) :
    (applyNorth g cfg bw t k A).data t' k' j' i' =
      if t' = t ∧ k' = k ∧ northApp g cfg bw j' ∧ 0 ≤ i' ∧ i' < g.Nx then
        north_val cfg
      else A.data t' k' j' i' := by
  unfold applyNorth
  by_cases hset : north_val cfg > -990
  · rw [if_pos hset, rowPass_data _ _ _ _ _ _ (intRange_nodup _ _)]
    refine if_congr ?_ rfl rfl
    rw [mem_intRange]
    unfold northApp
    tauto
  · rw [if_neg hset, if_neg (fun hc => hset hc.2.2.1.1)]

theorem applyNorth_data_lambda (g : ForcingFileGenerator) (cfg : TracerConfig)
    (bw t k : Int) (A : BoundaryField) (t' k' j' i' : Int) :
    (applyNorth g cfg bw t k A).data_lambda t' k' j' i' =
      if t' = t ∧ k' = k ∧ northApp g cfg bw j' ∧ 0 ≤ i' ∧ i' < g.Nx then
        max (A.data_lambda t' k' j' i') (lambda_val cfg * northWeight g bw j')
      else A.data_lambda t' k' j' i' := by
  unfold applyNorth
  by_cases hset : north_val cfg > -990
  · rw [if_pos hset, rowPass_data_lambda _ _ _ _ _ _ (intRange_nodup _ _)]
    refine if_congr ?_ rfl rfl
    rw [mem_intRange]
    unfold northApp
    tauto
  · rw [if_neg hset, if_neg (fun hc => hset hc.2.2.1.1)]

theorem boundaryStep_data (g : ForcingFileGenerator) (cfg : TracerConfig)
    (bw t k : Int) (A : BoundaryField) (t' k' j' i' : Int)
    (hj : 0 ≤ j' ∧ j' < g.Ny) (hi : 0 ≤ i' ∧ i' < g.Nx) :
    (boundaryStep g cfg bw t k A).data t' k' j' i' =
      if t' = t ∧ k' = k then
        (if northApp g cfg bw j' then north_val cfg
         else if southApp g cfg bw j' then south_val cfg
         else if eastApp g cfg bw i' then east_val cfg
         else if westApp g cfg bw i' then west_val cfg
         else A.data t' k' j' i')
      else A.data t' k' j' i' := by
  unfold boundaryStep
  rw [applyNorth_data, applySouth_data, applyEast_data, applyWest_data]
  by_cases htk : t' = t ∧ k' = k
  · by_cases hN : northApp g cfg bw j' <;>
      by_cases hS : southApp g cfg bw j' <;>
      by_cases hE : eastApp g cfg bw i' <;>
      by_cases hW : westApp g cfg bw i' <;>
      simp [htk.1, htk.2, hN, hS, hE, hW, hj.1, hj.2, hi.1, hi.2]
  · have c1 : ¬(t' = t ∧ k' = k ∧ northApp g cfg bw j' ∧ 0 ≤ i' ∧ i' < g.Nx) := by
      tauto
    have c2 : ¬(t' = t ∧ k' = k ∧ southApp g cfg bw j' ∧ 0 ≤ i' ∧ i' < g.Nx) := by
      tauto
    have c3 : ¬(t' = t ∧ k' = k ∧ 0 ≤ j' ∧ j' < g.Ny ∧ eastApp g cfg bw i') := by
      tauto
    have c4 : ¬(t' = t ∧ k' = k ∧ 0 ≤ j' ∧ j' < g.Ny ∧ westApp g cfg bw i') := by
      tauto
    rw [if_neg c1, if_neg c2, if_neg c3, if_neg c4, if_neg htk]

theorem boundaryStep_data_lambda (g : ForcingFileGenerator) (cfg : TracerConfig)
    (bw t k : Int) (A : BoundaryField) (t' k' j' i' : Int)
    (hj : 0 ≤ j' ∧ j' < g.Ny) (hi : 0 ≤ i' ∧ i' < g.Nx) :
    (boundaryStep g cfg bw t k A).data_lambda t' k' j' i' =
      if t' = t ∧ k' = k then
        (edgeRates g cfg bw j' i').foldl max (A.data_lambda t' k' j' i')
      else A.data_lambda t' k' j' i' := by
  unfold boundaryStep
  rw [applyNorth_data_lambda, applySouth_data_lambda, applyEast_data_lambda,
    applyWest_data_lambda]
  by_cases htk : t' = t ∧ k' = k
  · by_cases hN : northApp g cfg bw j' <;>
      by_cases hS : southApp g cfg bw j' <;>
      by_cases hE : eastApp g cfg bw i' <;>
      by_cases hW : westApp g cfg bw i' <;>
      simp [edgeRates, htk.1, htk.2, hN, hS, hE, hW, hj.1, hj.2, hi.1, hi.2]
  · have c1 : ¬(t' = t ∧ k' = k ∧ northApp g cfg bw j' ∧ 0 ≤ i' ∧ i' < g.Nx) := by
      tauto
    have c2 : ¬(t' = t ∧ k' = k ∧ southApp g cfg bw j' ∧ 0 ≤ i' ∧ i' < g.Nx) := by
      tauto
    have c3 : ¬(t' = t ∧ k' = k ∧ 0 ≤ j' ∧ j' < g.Ny ∧ eastApp g cfg bw i') := by
      tauto
    have c4 : ¬(t' = t ∧ k' = k ∧ 0 ≤ j' ∧ j' < g.Ny ∧ westApp g cfg bw i') := by
      tauto
    rw [if_neg c1, if_neg c2, if_neg c3, if_neg c4, if_neg htk]

theorem kfold_spec (g : ForcingFileGenerator) (cfg : TracerConfig)
    (bw t : Int) (Ks : List Int) (hK : Ks.Nodup) (A : BoundaryField)
    (t' k' j' i' : Int) (hj : 0 ≤ j' ∧ j' < g.Ny) (hi : 0 ≤ i' ∧ i' < g.Nx) :
    ((Ks.foldl (fun B k => boundaryStep g cfg bw t k B) A).data t' k' j' i' =
      if t' = t ∧ k' ∈ Ks then
        (if northApp g cfg bw j' then north_val cfg
         else if southApp g cfg bw j' then south_val cfg
         else if eastApp g cfg bw i' then east_val cfg
         else if westApp g cfg bw i' then west_val cfg
         else A.data t' k' j' i')
      else A.data t' k' j' i') ∧
    ((Ks.foldl (fun B k => boundaryStep g cfg bw t k B) A).data_lambda t' k' j' i' =
      if t' = t ∧ k' ∈ Ks then
        (edgeRates g cfg bw j' i').foldl max (A.data_lambda t' k' j' i')
      else A.data_lambda t' k' j' i') := by
  induction Ks generalizing A with
  | nil => simp
  | cons x Ks ih =>
    rw [List.foldl_cons]
    obtain ⟨ihd, ihl⟩ := ih (List.Nodup.of_cons hK) (boundaryStep g cfg bw t x A)
    rw [ihd, ihl, boundaryStep_data g cfg bw t x A t' k' j' i' hj hi,
      boundaryStep_data_lambda g cfg bw t x A t' k' j' i' hj hi]
    by_cases ht : t' = t
    · by_cases hk2 : k' ∈ Ks
      · have hkx : k' ≠ x := fun h => (List.nodup_cons.mp hK).1 (h ▸ hk2)
        simp [ht, hk2, hkx]
      · by_cases hkx : k' = x
        · have hx2 : x ∉ Ks := hkx ▸ hk2
          simp [ht, hkx, hx2]
        · simp [ht, hk2, hkx]
    · simp [ht]

theorem tfold_spec (g : ForcingFileGenerator) (cfg : TracerConfig)
    (bw : Int) (Ts : List Int) (hT : Ts.Nodup) (A : BoundaryField)
    (t' k' j' i' : Int) (hj : 0 ≤ j' ∧ j' < g.Ny) (hi : 0 ≤ i' ∧ i' < g.Nx) :
    ((Ts.foldl (fun B t => (intRange 0 g.Nz).foldl
        (fun C k => boundaryStep g cfg bw t k C) B) A).data t' k' j' i' =
      if t' ∈ Ts ∧ k' ∈ intRange 0 g.Nz then
        (if northApp g cfg bw j' then north_val cfg
         else if southApp g cfg bw j' then south_val cfg
         else if eastApp g cfg bw i' then east_val cfg
         else if westApp g cfg bw i' then west_val cfg
         else A.data t' k' j' i')
      else A.data t' k' j' i') ∧
    ((Ts.foldl (fun B t => (intRange 0 g.Nz).foldl
        (fun C k => boundaryStep g cfg bw t k C) B) A).data_lambda t' k' j' i' =
      if t' ∈ Ts ∧ k' ∈ intRange 0 g.Nz then
        (edgeRates g cfg bw j' i').foldl max (A.data_lambda t' k' j' i')
      else A.data_lambda t' k' j' i') := by
  induction Ts generalizing A with
  | nil => simp
  | cons x Ts ih =>
    rw [List.foldl_cons]
    obtain ⟨ihd, ihl⟩ := ih (List.Nodup.of_cons hT)
      ((intRange 0 g.Nz).foldl (fun C k => boundaryStep g cfg bw x k C) A)
    obtain ⟨kd, kl⟩ := kfold_spec g cfg bw x (intRange 0 g.Nz)
      (intRange_nodup _ _) A t' k' j' i' hj hi
    rw [ihd, ihl, kd, kl]
    by_cases hkz : k' ∈ intRange 0 g.Nz
    · by_cases ht2 : t' ∈ Ts
      · have htx : t' ≠ x := fun h => (List.nodup_cons.mp hT).1 (h ▸ ht2)
        simp [hkz, ht2, htx]
      · by_cases htx : t' = x
        · have hx2 : x ∉ Ts := htx ▸ ht2
          simp [hkz, htx, hx2]
        · simp [hkz, ht2, htx]
    · simp [hkz]

theorem buildBoundaryArrays_data (g : ForcingFileGenerator) (cfg : TracerConfig)
    (bw : Int) (t k j i : Int) (ht : 0 ≤ t ∧ t < g.num_steps)
    (hk : 0 ≤ k ∧ k < g.Nz) (hj : 0 ≤ j ∧ j < g.Ny) (hi : 0 ≤ i ∧ i < g.Nx) :
    (buildBoundaryArrays g cfg bw).data t k j i = vClosed g cfg bw j i := by
  unfold buildBoundaryArrays vClosed
  obtain ⟨hd, _⟩ := tfold_spec g cfg bw (intRange 0 g.num_steps)
    (intRange_nodup _ _) ⟨fun _ _ _ _ => -999, fun _ _ _ _ => 0⟩ t k j i hj hi
  rw [hd, if_pos ⟨mem_intRange.mpr (by omega), mem_intRange.mpr (by omega)⟩]

theorem buildBoundaryArrays_data_lambda (g : ForcingFileGenerator)
    (cfg : TracerConfig) (bw : Int) (t k j i : Int)
    (ht : 0 ≤ t ∧ t < g.num_steps) (hk : 0 ≤ k ∧ k < g.Nz)
    (hj : 0 ≤ j ∧ j < g.Ny) (hi : 0 ≤ i ∧ i < g.Nx) :
    (buildBoundaryArrays g cfg bw).data_lambda t k j i = rClosed g cfg bw j i := by
  unfold buildBoundaryArrays rClosed
  obtain ⟨_, hl⟩ := tfold_spec g cfg bw (intRange 0 g.num_steps)
    (intRange_nodup _ _) ⟨fun _ _ _ _ => -999, fun _ _ _ _ => 0⟩ t k j i hj hi
  rw [hl, if_pos ⟨mem_intRange.mpr (by omega), mem_intRange.mpr (by omega)⟩]

theorem westWeight_pos (g : ForcingFileGenerator) (cfg : TracerConfig)
    (bw i : Int) (hbw : 1 ≤ bw) (h : westApp g cfg bw i) : 0 < westWeight bw i := by
  obtain ⟨-, h0, h1⟩ := h
  have hb : (0 : ℚ) < (bw : ℚ) := by exact_mod_cast (by omega : (0 : Int) < bw)
  have hi : (i : ℚ) < (bw : ℚ) := by exact_mod_cast (by omega : i < bw)
  have := (div_lt_one hb).mpr hi
  unfold westWeight
  linarith

theorem eastWeight_pos (g : ForcingFileGenerator) (cfg : TracerConfig)
    (bw i : Int) (hbw : 1 ≤ bw) (h : eastApp g cfg bw i) :
    0 < eastWeight g bw i := by
  obtain ⟨-, h0, h1⟩ := h
  have hb : (0 : ℚ) < (bw : ℚ) := by exact_mod_cast (by omega : (0 : Int) < bw)
  have hi : ((g.Nx - 1 - i : Int) : ℚ) < (bw : ℚ) := by
    exact_mod_cast (by omega : g.Nx - 1 - i < bw)
  have := (div_lt_one hb).mpr hi
  unfold eastWeight
  linarith

theorem southWeight_pos (g : ForcingFileGenerator) (cfg : TracerConfig)
    (bw j : Int) (hbw : 1 ≤ bw) (h : southApp g cfg bw j) :
    0 < southWeight bw j := by
  obtain ⟨-, h0, h1⟩ := h
  have hb : (0 : ℚ) < (bw : ℚ) := by exact_mod_cast (by omega : (0 : Int) < bw)
  have hj : (j : ℚ) < (bw : ℚ) := by exact_mod_cast (by omega : j < bw)
  have := (div_lt_one hb).mpr hj
  unfold southWeight
  linarith

theorem northWeight_pos (g : ForcingFileGenerator) (cfg : TracerConfig)
    (bw j : Int) (hbw : 1 ≤ bw) (h : northApp g cfg bw j) :
    0 < northWeight g bw j := by
  obtain ⟨-, h0, h1⟩ := h
  have hb : (0 : ℚ) < (bw : ℚ) := by exact_mod_cast (by omega : (0 : Int) < bw)
  have hj : ((g.Ny - 1 - j : Int) : ℚ) < (bw : ℚ) := by
    exact_mod_cast (by omega : g.Ny - 1 - j < bw)
  have := (div_lt_one hb).mpr hj
  unfold northWeight
  linarith

theorem edgeRates_pos (g : ForcingFileGenerator) (cfg : TracerConfig)
    (bw j i : Int) (hl : 0 < lambda_val cfg) (hbw : 1 ≤ bw) :
    ∀ r ∈ edgeRates g cfg bw j i, 0 < r := by
  intro r hr
  unfold edgeRates at hr
  simp only [List.mem_append] at hr
  rcases hr with ((h | h) | h) | h
  · by_cases hA : westApp g cfg bw i
    · rw [if_pos hA, List.mem_singleton] at h
      rw [h]
      exact mul_pos hl (westWeight_pos g cfg bw i hbw hA)
    · rw [if_neg hA] at h
      exact absurd h (List.not_mem_nil r)
  · by_cases hA : eastApp g cfg bw i
    · rw [if_pos hA, List.mem_singleton] at h
      rw [h]
      exact mul_pos hl (eastWeight_pos g cfg bw i hbw hA)
    · rw [if_neg hA] at h
      exact absurd h (List.not_mem_nil r)
  · by_cases hA : southApp g cfg bw j
    · rw [if_pos hA, List.mem_singleton] at h
      rw [h]
      exact mul_pos hl (southWeight_pos g cfg bw j hbw hA)
    · rw [if_neg hA] at h
      exact absurd h (List.not_mem_nil r)
  · by_cases hA : northApp g cfg bw j
    · rw [if_pos hA, List.mem_singleton] at h
      rw [h]
      exact mul_pos hl (northWeight_pos g cfg bw j hbw hA)
    · rw [if_neg hA] at h
      exact absurd h (List.not_mem_nil r)

theorem le_foldl_max (l : List ℚ) : ∀ a : ℚ, a ≤ l.foldl max a := by
  induction l with
  | nil =>
    intro a
    simp
  | cons x l ih =>
    intro a
    exact le_trans (le_max_left a x) (ih (max a x))

theorem mem_le_foldl_max (l : List ℚ) : ∀ a x : ℚ, x ∈ l → x ≤ l.foldl max a := by
  induction l with
  | nil =>
    intro a x h
    exact absurd h (List.not_mem_nil x)
  | cons y l ih =>
    intro a x h
    rw [List.foldl_cons]
    rcases List.mem_cons.mp h with h | h
    · rw [h]
      exact le_trans (le_max_right a y) (le_foldl_max l _)
    · exact ih _ x h

theorem foldl_max_mem (l : List ℚ) : ∀ a : ℚ, l.foldl max a = a ∨ l.foldl max a ∈ l := by
  induction l with
  | nil =>
    intro a
    left
    rfl
  | cons x l ih =>
    intro a
    rw [List.foldl_cons]
    rcases ih (max a x) with h | h
    · rcases max_choice a x with hm | hm
      · left
        rw [h, hm]
      · right
        rw [h, hm]
        exact List.mem_cons_self x l
    · right
      exact List.mem_cons_of_mem x h

theorem touched_rates_mem (g : ForcingFileGenerator) (cfg : TracerConfig)
    (bw j i : Int) (h : touchedCell g cfg bw j i) :
    ∃ r, r ∈ edgeRates g cfg bw j i := by
  unfold touchedCell at h
  unfold edgeRates
  rcases h with h | h | h | h
  · exact ⟨lambda_val cfg * westWeight bw i, by simp [h]⟩
  · exact ⟨lambda_val cfg * eastWeight g bw i, by simp [h]⟩
  · exact ⟨lambda_val cfg * southWeight bw j, by simp [h]⟩
  · exact ⟨lambda_val cfg * northWeight g bw j, by simp [h]⟩

theorem touched_rClosed_pos (g : ForcingFileGenerator) (cfg : TracerConfig)
    (bw j i : Int) (hl : 0 < lambda_val cfg) (hbw : 1 ≤ bw)
    (h : touchedCell g cfg bw j i) : 0 < rClosed g cfg bw j i := by
  obtain ⟨r, hr⟩ := touched_rates_mem g cfg bw j i h
  have h1 := edgeRates_pos g cfg bw j i hl hbw r hr
  have h2 := mem_le_foldl_max (edgeRates g cfg bw j i) 0 r hr
  unfold rClosed
  linarith

theorem touched_vClosed_set (g : ForcingFileGenerator) (cfg : TracerConfig)
    (bw j i : Int) (h : touchedCell g cfg bw j i) :
    vClosed g cfg bw j i > -990 := by
  unfold vClosed
  split_ifs with h1 h2 h3 h4
  · exact h1.1
  · exact h2.1
  · exact h3.1
  · exact h4.1
  · exfalso
    unfold touchedCell at h
    tauto

theorem untouched_closed (g : ForcingFileGenerator) (cfg : TracerConfig)
    (bw j i : Int) (h : ¬touchedCell g cfg bw j i) :
    vClosed g cfg bw j i = -999 ∧ rClosed g cfg bw j i = 0 := by
  unfold touchedCell at h
  push_neg at h
  obtain ⟨hW, hE, hS, hN⟩ := h
  unfold vClosed rClosed edgeRates
  rw [if_neg hN, if_neg hS, if_neg hE, if_neg hW, if_neg hW, if_neg hE,
    if_neg hS, if_neg hN]
  exact ⟨rfl, rfl⟩

/-- C1: for every boundary build with lambda_scale > 0 and buffer_width ≥ 1 and
every in-extent cell [t, k, j, i] lying in the buffer zone of at least one edge
whose boundary value is set (> -990), the relaxation rate is positive iff the
value differs from the -999.0 sentinel; a cell touched by no set edge's buffer
keeps relaxation rate 0.0 and value -999.0. -/
theorem boundary_relax_value_invariant (g : ForcingFileGenerator)
    (cfg : TracerConfig) (bw : Int) (hl : 0 < lambda_val cfg) (hbw : 1 ≤ bw)
    (t k j i : Int) (ht : 0 ≤ t ∧ t < g.num_steps) (hk : 0 ≤ k ∧ k < g.Nz)
    (hj : 0 ≤ j ∧ j < g.Ny) (hi : 0 ≤ i ∧ i < g.Nx) :
    (touchedCell g cfg bw j i →
      (0 < (buildBoundaryArrays g cfg bw).data_lambda t k j i ↔
        (buildBoundaryArrays g cfg bw).data t k j i ≠ -999)) ∧
    (¬touchedCell g cfg bw j i →
      (buildBoundaryArrays g cfg bw).data_lambda t k j i = 0 ∧
      (buildBoundaryArrays g cfg bw).data t k j i = -999) := by
  rw [buildBoundaryArrays_data g cfg bw t k j i ht hk hj hi,
    buildBoundaryArrays_data_lambda g cfg bw t k j i ht hk hj hi]
  constructor
  · intro htouch
    have h1 := touched_rClosed_pos g cfg bw j i hl hbw htouch
    have h2 := touched_vClosed_set g cfg bw j i htouch
    constructor
    · intro _ heq
      rw [heq] at h2
      norm_num at h2
    · intro _
      exact h1
  · intro huntouch
    obtain ⟨hv, hr⟩ := untouched_closed g cfg bw j i huntouch
    exact ⟨hr, hv⟩

theorem boundary_relax_value_invariant_witness :
    0 < lambda_val cfgWest ∧
    (0 < (buildBoundaryArrays gEx cfgWest 1).data_lambda 0 0 0 0 ↔
      (buildBoundaryArrays gEx cfgWest 1).data 0 0 0 0 ≠ -999) :=
  ⟨by decide,
    (boundary_relax_value_invariant gEx cfgWest 1 (by decide) (by decide) 0 0 0 0
      (by decide) (by decide) (by decide) (by decide)).1 (by decide)⟩

/-- C2: at every in-extent cell reached by the buffer zones of two or more set
edges, the final relaxation rate is the pointwise maximum of the per-edge
contributions lambda_val * weight (it is one of them and bounds all of them);
in particular with west and south set (east and north unset) and Nx, Ny ≥ 1,
the rate at cell (0, 0) is max of the west and south rates — never their sum. -/
theorem boundary_relax_max_merge (g : ForcingFileGenerator) (cfg : TracerConfig)
    (bw : Int) (hl : 0 < lambda_val cfg) (hbw : 1 ≤ bw) :
    (∀ t k j i : Int, 0 ≤ t ∧ t < g.num_steps → 0 ≤ k ∧ k < g.Nz →
      0 ≤ j ∧ j < g.Ny → 0 ≤ i ∧ i < g.Nx →
      2 ≤ (edgeRates g cfg bw j i).length →
      (buildBoundaryArrays g cfg bw).data_lambda t k j i ∈ edgeRates g cfg bw j i ∧
      ∀ r ∈ edgeRates g cfg bw j i,
        r ≤ (buildBoundaryArrays g cfg bw).data_lambda t k j i) ∧
    (west_val cfg > -990 → south_val cfg > -990 → east_val cfg ≤ -990 →
      north_val cfg ≤ -990 → 0 < g.Nx → 0 < g.Ny →
      ∀ t k : Int, 0 ≤ t ∧ t < g.num_steps → 0 ≤ k ∧ k < g.Nz →
      (buildBoundaryArrays g cfg bw).data_lambda t k 0 0 =
        max (lambda_val cfg * westWeight bw 0) (lambda_val cfg * southWeight bw 0) ∧
      (buildBoundaryArrays g cfg bw).data_lambda t k 0 0 ≠
        lambda_val cfg * westWeight bw 0 + lambda_val cfg * southWeight bw 0) := by
  constructor
  · intro t k j i ht hk hj hi hlen
    rw [buildBoundaryArrays_data_lambda g cfg bw t k j i ht hk hj hi]
    unfold rClosed
    constructor
    · rcases foldl_max_mem (edgeRates g cfg bw j i) 0 with h | h
      · exfalso
        have hne : edgeRates g cfg bw j i ≠ [] := by
          intro hnil
          rw [hnil] at hlen
          simp at hlen
        obtain ⟨r, hr⟩ := List.exists_mem_of_ne_nil _ hne
        have hp := edgeRates_pos g cfg bw j i hl hbw r hr
        have hle := mem_le_foldl_max (edgeRates g cfg bw j i) 0 r hr
        rw [h] at hle
        linarith
      · exact h
    · intro r hr
      exact mem_le_foldl_max (edgeRates g cfg bw j i) 0 r hr
  · intro hw hs he hn hNx hNy t k ht hk
    have hWApp : westApp g cfg bw 0 := ⟨hw, le_refl 0, by omega⟩
    have hSApp : southApp g cfg bw 0 := ⟨hs, le_refl 0, by omega⟩
    have hEApp : ¬eastApp g cfg bw 0 := fun hA => absurd hA.1 (not_lt.mpr he)
    have hNApp : ¬northApp g cfg bw 0 := fun hA => absurd hA.1 (not_lt.mpr hn)
    rw [buildBoundaryArrays_data_lambda g cfg bw t k 0 0 ht hk
      ⟨le_refl 0, hNy⟩ ⟨le_refl 0, hNx⟩]
    have hrates : edgeRates g cfg bw 0 0 =
        [lambda_val cfg * westWeight bw 0, lambda_val cfg * southWeight bw 0] := by
      unfold edgeRates
      rw [if_pos hWApp, if_neg hEApp, if_pos hSApp, if_neg hNApp]
      rfl
    have hw0 : westWeight bw 0 = 1 := by
      unfold westWeight
      norm_num
    have hs0 : southWeight bw 0 = 1 := by
      unfold southWeight
      norm_num
    unfold rClosed
    rw [hrates, hw0, hs0]
    simp only [List.foldl_cons, List.foldl_nil]
    have hmax : max (0 : ℚ) (lambda_val cfg * 1) = lambda_val cfg * 1 :=
      max_eq_right (by linarith)
    constructor
    · rw [hmax]
    · rw [hmax, max_self]
      intro hcontra
      ring_nf at hcontra
      linarith

theorem boundary_relax_max_merge_witness :
    ((buildBoundaryArrays gEx cfgWS 1).data_lambda 0 0 0 0 ∈
      edgeRates gEx cfgWS 1 0 0) ∧
    (buildBoundaryArrays gEx cfgWS 1).data_lambda 0 0 0 0 =
      max (lambda_val cfgWS * westWeight 1 0) (lambda_val cfgWS * southWeight 1 0) :=
  ⟨((boundary_relax_max_merge gEx cfgWS 1 (by decide) (by decide)).1 0 0 0 0
      (by decide) (by decide) (by decide) (by decide) (by decide)).1,
    ((boundary_relax_max_merge gEx cfgWS 1 (by decide) (by decide)).2 (by decide)
      (by decide) (by decide) (by decide) (by decide) (by decide) 0 0 (by decide)
      (by decide)).1⟩

/-- C3: at every in-extent cell lying in the buffer zones of two or more set
edges, the final value is the boundary value of the last edge in the fixed
processing order west, east, south, north whose set buffer zone contains the
cell (the last element of edgeValues). -/
theorem boundary_value_last_edge_wins (g : ForcingFileGenerator)
    (cfg : TracerConfig) (bw : Int) (t k j i : Int)
    (ht : 0 ≤ t ∧ t < g.num_steps) (hk : 0 ≤ k ∧ k < g.Nz)
    (hj : 0 ≤ j ∧ j < g.Ny) (hi : 0 ≤ i ∧ i < g.Nx)
    (hlen : 2 ≤ (edgeValues g cfg bw j i).length) :
    (edgeValues g cfg bw j i).getLast? =
      some ((buildBoundaryArrays g cfg bw).data t k j i) := by
  rw [buildBoundaryArrays_data g cfg bw t k j i ht hk hj hi]
  by_cases hN : northApp g cfg bw j <;> by_cases hS : southApp g cfg bw j <;>
    by_cases hE : eastApp g cfg bw i <;> by_cases hW : westApp g cfg bw i <;>
    simp_all [edgeValues, vClosed]

theorem boundary_value_last_edge_wins_witness :
    (edgeValues gEx cfgWS 1 0 0).getLast? =
      some ((buildBoundaryArrays gEx cfgWS 1).data 0 0 0 0) :=
  boundary_value_last_edge_wins gEx cfgWS 1 0 0 0 0 (by decide) (by decide)
    (by decide) (by decide) (by decide)

/-- C4: for a boundary build with only west set (west = 10, lambda = 1e-4 =
1/10000), buffer_width = 5 and Nx = 20, every in-extent cell of column i = 0
has relaxation rate exactly 1/10000, every cell of column i = 4 has exactly
1/50000 (= 1e-4 * (1 - 4/5) = 2e-5), and every cell of column i = 10 has 0,
for all time steps, depths and rows. -/
theorem boundary_west_taper_example (g : ForcingFileGenerator) (hNx : g.Nx = 20)
    (t k j : Int) (ht : 0 ≤ t ∧ t < g.num_steps) (hk : 0 ≤ k ∧ k < g.Nz)
    (hj : 0 ≤ j ∧ j < g.Ny) :
    (buildBoundaryArrays g ⟨some 10, none, none, none, some (1 / 10000)⟩
      5).data_lambda t k j 0 = 1 / 10000 ∧
    (buildBoundaryArrays g ⟨some 10, none, none, none, some (1 / 10000)⟩
      5).data_lambda t k j 4 = 1 / 50000 ∧
    (buildBoundaryArrays g ⟨some 10, none, none, none, some (1 / 10000)⟩
      5).data_lambda t k j 10 = 0 := by
  refine ⟨?_, ?_, ?_⟩ <;>
    rw [buildBoundaryArrays_data_lambda _ _ _ t k j _ ht hk hj (by omega)] <;>
    simp only [rClosed, edgeRates, westApp, eastApp, southApp, northApp, hNx] <;>
    norm_num [west_val, east_val, south_val, north_val, lambda_val, westWeight,
      max_eq_right]

theorem boundary_west_taper_example_witness :
    (buildBoundaryArrays ⟨20, 1, 1, "x", 1, 1, [0]⟩
      ⟨some 10, none, none, none, some (1 / 10000)⟩ 5).data_lambda 0 0 0 0 =
        1 / 10000 ∧
    (buildBoundaryArrays ⟨20, 1, 1, "x", 1, 1, [0]⟩
      ⟨some 10, none, none, none, some (1 / 10000)⟩ 5).data_lambda 0 0 0 4 =
        1 / 50000 ∧
    (buildBoundaryArrays ⟨20, 1, 1, "x", 1, 1, [0]⟩
      ⟨some 10, none, none, none, some (1 / 10000)⟩ 5).data_lambda 0 0 0 10 =
        0 :=
  boundary_west_taper_example ⟨20, 1, 1, "x", 1, 1, [0]⟩ rfl 0 0 0 (by decide)
    (by decide) (by decide)

theorem intRange_eq_nil {a b : Int} (h : b ≤ a) : intRange a b = [] := by
  unfold intRange
  rw [(by omega : (b - a).toNat = 0)]
  rfl

theorem foldl_fixed {α β : Type} (f : α → β → α) (h : ∀ a b, f a b = a) :
    ∀ (L : List β) (a : α), L.foldl f a = a := by
  intro L
  induction L with
  | nil =>
    intro a
    rfl
  | cons x L ih =>
    intro a
    rw [List.foldl_cons, h]
    exact ih a

theorem boundaryStep_nonpos (g : ForcingFileGenerator) (cfg : TracerConfig)
    (bw t k : Int) (A : BoundaryField) (hbw : bw ≤ 0) :
    boundaryStep g cfg bw t k A = A := by
  unfold boundaryStep applyNorth applySouth applyEast applyWest
  rw [intRange_eq_nil (by omega : min bw g.Nx ≤ 0),
    intRange_eq_nil (by omega : g.Nx ≤ max 0 (g.Nx - bw)),
    intRange_eq_nil (by omega : min bw g.Ny ≤ 0),
    intRange_eq_nil (by omega : g.Ny ≤ max 0 (g.Ny - bw))]
  unfold colPass rowPass
  simp

theorem buildBoundaryArrays_nonpos (g : ForcingFileGenerator)
    (cfg : TracerConfig) (bw : Int) (hbw : bw ≤ 0) :
    buildBoundaryArrays g cfg bw =
      ⟨fun _ _ _ _ => -999, fun _ _ _ _ => 0⟩ := by
  unfold buildBoundaryArrays
  rw [foldl_fixed _ (fun A t => foldl_fixed _
    (fun B k => boundaryStep_nonpos g cfg bw t k B hbw) (intRange 0 g.Nz) A)]

theorem boundaryStats_fill_false (g : ForcingFileGenerator) :
    boundaryStats g ⟨fun _ _ _ _ => -999, fun _ _ _ _ => 0⟩ = false := by
  simp [boundaryStats, anyCell, (by norm_num : ¬((-999 : ℚ) > -990)),
    (by norm_num : ¬((0 : ℚ) > 0))]

/-- C7 (amended): with buffer_width ≤ 0, create_boundary_file raises no
InvalidConfiguration — no such check exists in the code.  All four buffer
loops are empty, so the first tracer's arrays are built and written to the
file entirely as fill values (value -999, rate 0), and the call then fails
with the empty-selection ValueError of the statistics — after the arrays are
built and written, not before. -/
theorem boundary_nonpositive_buffer_no_validation (g : ForcingFileGenerator)
    (name : String) (cfg : TracerConfig) (rest : List (String × TracerConfig))
    (bw : Int) (hbw : bw ≤ 0) :
    create_boundary_file g ((name, cfg) :: rest) bw =
      ([BEv.createDataset, BEv.writeTimes,
        BEv.writeField name (buildBoundaryArrays g cfg bw)],
        Except.error BoundaryError.statsError) ∧
    (∀ t k j i : Int, (buildBoundaryArrays g cfg bw).data t k j i = -999 ∧
      (buildBoundaryArrays g cfg bw).data_lambda t k j i = 0) := by
  have hb := buildBoundaryArrays_nonpos g cfg bw hbw
  constructor
  · unfold create_boundary_file boundaryTracerLoop
    rw [if_neg (by rw [hb, boundaryStats_fill_false g]; exact Bool.false_ne_true)]
  · intro t k j i
    rw [hb]
    exact ⟨rfl, rfl⟩

theorem boundary_nonpositive_buffer_no_validation_witness :
    (create_boundary_file gEx [("S", cfgWS)] (-3) =
      ([BEv.createDataset, BEv.writeTimes,
        BEv.writeField "S" (buildBoundaryArrays gEx cfgWS (-3))],
        Except.error BoundaryError.statsError)) ∧
    (∀ t k j i : Int, (buildBoundaryArrays gEx cfgWS (-3)).data t k j i = -999 ∧
      (buildBoundaryArrays gEx cfgWS (-3)).data_lambda t k j i = 0) :=
  boundary_nonpositive_buffer_no_validation gEx "S" cfgWS [] (-3) (by decide)

/-- C7 counterexample: at buffer_width = 0 with west set, the boundary build
does not fail with InvalidConfiguration before any array is built: the trace
shows the (all-fill) arrays written to the file, and the subsequent failure is
the statistics error. -/
theorem boundary_nonpositive_buffer_counterexample :
    create_boundary_file gEx [("T", cfgWest)] 0 =
      ([BEv.createDataset, BEv.writeTimes,
        BEv.writeField "T" (buildBoundaryArrays gEx cfgWest 0)],
        Except.error BoundaryError.statsError) := by
  rfl

/-- C8 (amended): __init__ performs no dimension validation: any Nx, Ny, Nz,
num_steps — including non-positive values — are accepted without error (no
InvalidDimension exists) for every nonzero time step; the inputs are stored as
given and the derived times array has length max(num_steps, 0). -/
theorem init_no_dimension_validation (Nx Ny Nz : Int) (d : String) (tsh : ℚ)
    (n : Int) (hdim : Nx ≤ 0 ∨ Ny ≤ 0 ∨ Nz ≤ 0 ∨ n ≤ 0) (hstep : tsh ≠ 0) :
    ∃ g : ForcingFileGenerator,
      mkForcingFileGenerator Nx Ny Nz d tsh n = Except.ok g ∧
      g.Nx = Nx ∧ g.Ny = Ny ∧ g.Nz = Nz ∧ g.num_steps = n ∧
      g.times.length = n.toNat := by
  have hne : tsh * 3600 ≠ 0 := mul_ne_zero hstep (by norm_num)
  unfold mkForcingFileGenerator
  rw [if_neg hne]
  refine ⟨_, rfl, rfl, rfl, rfl, rfl, ?_⟩
  unfold np_arange
  rw [List.length_map, List.length_range]
  have harg : ((n : ℚ) * tsh * 3600 - 0) / (tsh * 3600) = (n : ℚ) := by
    rw [sub_zero, mul_assoc, mul_div_assoc, div_self hne, mul_one]
  rw [harg, Int.ceil_intCast]

theorem init_no_dimension_validation_witness :
    ∃ g : ForcingFileGenerator,
      mkForcingFileGenerator 0 5 5 "2024-01-01" 1 (-2) = Except.ok g ∧
      g.Nx = 0 ∧ g.Ny = 5 ∧ g.Nz = 5 ∧ g.num_steps = -2 ∧
      g.times.length = (-2 : Int).toNat :=
  init_no_dimension_validation 0 5 5 "2024-01-01" 1 (-2) (Or.inl (by decide))
    (by decide)

/-- C8 counterexample: constructing the generator with Nx = -1 and positive
remaining parameters does not fail — there is no InvalidDimension validation;
the construction succeeds and produces the usual times array. -/
theorem init_no_dimension_validation_counterexample :
    initOk (mkForcingFileGenerator (-1) 5 5 "2024-01-01" 1 2) = true ∧
    Except.map (fun g => g.times)
      (mkForcingFileGenerator (-1) 5 5 "2024-01-01" 1 2) =
      Except.ok [0, 3600] := by
  have hmk : mkForcingFileGenerator (-1) 5 5 "2024-01-01" 1 2 =
      Except.ok ⟨-1, 5, 5, "2024-01-01", 1, 2,
        np_arange 0 (((2 : Int) : ℚ) * 1 * 3600) (1 * 3600)⟩ := by
    unfold mkForcingFileGenerator
    rw [if_neg (by norm_num)]
  have htimes : np_arange 0 (((2 : Int) : ℚ) * 1 * 3600) (1 * 3600) = [0, 3600] := by
    unfold np_arange
    have harg : (((2 : Int) : ℚ) * 1 * 3600 - 0) / (1 * 3600) = ((2 : Int) : ℚ) := by
      norm_num
    rw [harg, Int.ceil_intCast]
    rw [(by rfl : Int.toNat 2 = 2), (by rfl : List.range 2 = [0, 1])]
    norm_num
  rw [hmk, htimes]
  exact ⟨rfl, rfl⟩

/-- C9: for positive grid dimensions, a positive step count and a positive
time step, construction succeeds and the derived times sequence has length
num_steps, starts at 0, satisfies times[m] = m * step_seconds where
step_seconds = time_step_hours * 3600, and is strictly increasing with
constant difference step_seconds. -/
theorem times_arithmetic_progression (Nx Ny Nz : Int) (d : String) (tsh : ℚ)
    (n : Int) (hNx : 0 < Nx) (hNy : 0 < Ny) (hNz : 0 < Nz) (hn : 0 < n)
    (htsh : 0 < tsh) :
    ∃ g : ForcingFileGenerator,
      mkForcingFileGenerator Nx Ny Nz d tsh n = Except.ok g ∧
      g.times.length = n.toNat ∧
      g.times.head? = some 0 ∧
      (∀ m : Nat, m < n.toNat →
        g.times.get? m = some ((m : ℚ) * (tsh * 3600))) ∧
      (∀ m : Nat, m + 1 < n.toNat →
        ∃ a b : ℚ, g.times.get? m = some a ∧ g.times.get? (m + 1) = some b ∧
          b = a + tsh * 3600 ∧ a < b) := by
  have hne : tsh * 3600 ≠ 0 := by positivity
  unfold mkForcingFileGenerator
  rw [if_neg hne]
  have harg : ((n : ℚ) * tsh * 3600 - 0) / (tsh * 3600) = (n : ℚ) := by
    rw [sub_zero, mul_assoc, mul_div_assoc, div_self hne, mul_one]
  have hget : ∀ m : Nat, m < n.toNat →
      (np_arange 0 ((n : ℚ) * tsh * 3600) (tsh * 3600)).get? m =
        some ((m : ℚ) * (tsh * 3600)) := by
    intro m hm
    unfold np_arange
    rw [List.get?_map, List.get?_range (by rw [harg, Int.ceil_intCast]; exact hm)]
    simp
  have hlen : (np_arange 0 ((n : ℚ) * tsh * 3600) (tsh * 3600)).length = n.toNat := by
    unfold np_arange
    rw [List.length_map, List.length_range, harg, Int.ceil_intCast]
  refine ⟨_, rfl, hlen, ?_, hget, ?_⟩
  · rw [← List.get?_zero, hget 0 (by omega)]
    norm_num
  · intro m hm
    refine ⟨(m : ℚ) * (tsh * 3600), ((m : Nat) + 1 : ℚ) * (tsh * 3600),
      hget m (by omega), ?_, ?_, ?_⟩
    · rw [hget (m + 1) hm]
      push_cast
      ring_nf
    · push_cast
      ring
    · have hstep : (0 : ℚ) < tsh * 3600 := by positivity
      have : ((m : Nat) : ℚ) < ((m : Nat) + 1 : ℚ) := by push_cast; linarith
      exact mul_lt_mul_of_pos_right this hstep

theorem times_arithmetic_progression_witness :
    ∃ g : ForcingFileGenerator,
      mkForcingFileGenerator 1 1 1 "2024-01-01" 1 2 = Except.ok g ∧
      g.times.length = (2 : Int).toNat ∧
      g.times.head? = some 0 ∧
      (∀ m : Nat, m < (2 : Int).toNat →
        g.times.get? m = some ((m : ℚ) * ((1 : ℚ) * 3600))) ∧
      (∀ m : Nat, m + 1 < (2 : Int).toNat →
        ∃ a b : ℚ, g.times.get? m = some a ∧ g.times.get? (m + 1) = some b ∧
          b = a + (1 : ℚ) * 3600 ∧ a < b) :=
  times_arithmetic_progression 1 1 1 "2024-01-01" 1 2 (by decide) (by decide)
    (by decide) (by decide) (by decide)

theorem normIdx_of_inbounds {e c : Int} (h0 : 0 ≤ c) (h1 : c < e) :
    normIdx e c = some c := by
  unfold normIdx
  rw [if_pos ⟨h0, h1⟩]

theorem normIdx_of_neg {e c : Int} (h0 : -e ≤ c) (h1 : c < 0) :
    normIdx e c = some (e + c) := by
  unfold normIdx
  rw [if_neg (by omega), if_pos ⟨h0, h1⟩]

theorem normIdx_none_of_oob {e c : Int} (he : 0 ≤ e) (h : e ≤ c) :
    normIdx e c = none := by
  unfold normIdx
  rw [if_neg (by omega), if_neg (by omega)]

theorem normLoc_of_inbounds (g : ForcingFileGenerator) (loc : Int × Int × Int)
    (h : 0 ≤ loc.1 ∧ loc.1 < g.Nx ∧ 0 ≤ loc.2.1 ∧ loc.2.1 < g.Ny ∧
      0 ≤ loc.2.2 ∧ loc.2.2 < g.Nz) :
    normLoc g loc = some loc := by
  unfold normLoc
  rw [normIdx_of_inbounds h.1 h.2.1, normIdx_of_inbounds h.2.2.1 h.2.2.2.1,
    normIdx_of_inbounds h.2.2.2.2.1 h.2.2.2.2.2]

theorem lastHit_from (g : ForcingFileGenerator) (i j k : Int)
    (ts : List ((Int × Int × Int) × ℚ × ℚ)) : ∀ acc : Option (ℚ × ℚ),
    ts.foldl (fun acc s =>
        if normLoc g s.1 = some (i, j, k) then some s.2 else acc) acc =
      match lastHit g i j k ts with
      | some p => some p
      | none => acc := by
  induction ts with
  | nil =>
    intro acc
    rfl
  | cons s ts ih =>
    intro acc
    rw [List.foldl_cons, ih]
    have hcons : lastHit g i j k (s :: ts) =
        match lastHit g i j k ts with
        | some p => some p
        | none => if normLoc g s.1 = some (i, j, k) then some s.2 else none := by
      unfold lastHit
      rw [List.foldl_cons]
      exact ih _
    rw [hcons]
    cases lastHit g i j k ts with
    | some p => rfl
    | none =>
      by_cases hc : normLoc g s.1 = some (i, j, k)
      · rw [if_pos hc, if_pos hc]
      · rw [if_neg hc, if_neg hc]

theorem lastHit_cons (g : ForcingFileGenerator) (i j k : Int)
    (s : (Int × Int × Int) × ℚ × ℚ) (ts : List ((Int × Int × Int) × ℚ × ℚ)) :
    lastHit g i j k (s :: ts) =
      match lastHit g i j k ts with
      | some p => some p
      | none => if normLoc g s.1 = some (i, j, k) then some s.2 else none := by
  unfold lastHit
  rw [List.foldl_cons]
  exact lastHit_from g i j k ts _

theorem buildRiverSites_ok (g : ForcingFileGenerator)
    (ts : List ((Int × Int × Int) × ℚ × ℚ))
    (hnorm : ∀ s ∈ ts, (normLoc g s.1).isSome) :
    ∀ A : RiverField, ∃ F : RiverField,
      buildRiverSites g A ts = Except.ok F ∧
      ∀ t k j i : Int, 0 ≤ t → t < g.num_steps →
        (F.flux_data t k j i =
          (match lastHit g i j k ts with
           | some p => p.1
           | none => A.flux_data t k j i)) ∧
        (F.value_data t k j i =
          (match lastHit g i j k ts with
           | some p => p.2
           | none => A.value_data t k j i)) := by
  induction ts with
  | nil =>
    intro A
    exact ⟨A, rfl, fun t k j i h0 h1 => ⟨rfl, rfl⟩⟩
  | cons s ts ih =>
    intro A
    have hs := hnorm s (List.mem_cons_self s ts)
    obtain ⟨c, hc⟩ := Option.isSome_iff_exists.mp hs
    obtain ⟨ci, cj, ck⟩ := c
    have hadd : addSite g A s.1 s.2.1 s.2.2 =
        some ⟨writeSite g.num_steps (ci, cj, ck) s.2.1 A.flux_data,
          writeSite g.num_steps (ci, cj, ck) s.2.2 A.value_data⟩ := by
      unfold addSite
      unfold normLoc at hc ⊢
      rw [hc]
    obtain ⟨F, hF, hprop⟩ := ih (fun x hx => hnorm x (List.mem_cons_of_mem s hx))
      ⟨writeSite g.num_steps (ci, cj, ck) s.2.1 A.flux_data,
        writeSite g.num_steps (ci, cj, ck) s.2.2 A.value_data⟩
    refine ⟨F, ?_, ?_⟩
    · show (match addSite g A s.1 s.2.1 s.2.2 with
        | some A2 => buildRiverSites g A2 ts
        | none => Except.error RiverError.indexError) = Except.ok F
      rw [hadd]
      exact hF
    · intro t k j i h0 h1
      obtain ⟨hf, hv⟩ := hprop t k j i h0 h1
      rw [hf, hv, lastHit_cons]
      cases lastHit g i j k ts with
      | some p => exact ⟨rfl, rfl⟩
      | none =>
        by_cases hcell : ci = i ∧ cj = j ∧ ck = k
        · obtain ⟨rfl, rfl, rfl⟩ := hcell
          unfold writeSite
          simp [hc, h0, h1]
        · have hne : ¬(normLoc g s.1 = some (i, j, k)) := by
            rw [hc]
            intro hcon
            rw [Option.some.injEq, Prod.mk.injEq, Prod.mk.injEq] at hcon
            tauto
          have hne2 : ¬(0 ≤ t ∧ t < g.num_steps ∧ k = ck ∧ j = cj ∧ i = ci) := by
            intro hcon
            exact hcell ⟨hcon.2.2.2.2.symm, hcon.2.2.2.1.symm, hcon.2.2.1.symm⟩
          unfold writeSite
          simp [hne, hne2]

theorem buildRiverSites_error (g : ForcingFileGenerator)
    (ts : List ((Int × Int × Int) × ℚ × ℚ))
    (h : ∃ s ∈ ts, normLoc g s.1 = none) :
    ∀ A : RiverField,
      buildRiverSites g A ts = Except.error RiverError.indexError := by
  induction ts with
  | nil =>
    obtain ⟨s, hs, _⟩ := h
    exact absurd hs (List.not_mem_nil s)
  | cons s ts ih =>
    intro A
    show (match addSite g A s.1 s.2.1 s.2.2 with
      | some A2 => buildRiverSites g A2 ts
      | none => Except.error RiverError.indexError) = _
    by_cases hs : normLoc g s.1 = none
    · have haddn : addSite g A s.1 s.2.1 s.2.2 = none := by
        unfold addSite
        unfold normLoc at hs ⊢
        rw [hs]
      rw [haddn]
    · obtain ⟨x, hx, hxn⟩ := h
      rcases List.mem_cons.mp hx with hx1 | hx2
      · exact absurd (hx1 ▸ hxn) hs
      · obtain ⟨c, hc⟩ := Option.isSome_iff_exists.mp
          (Option.ne_none_iff_isSome.mp hs)
        obtain ⟨ci, cj, ck⟩ := c
        have hadd : addSite g A s.1 s.2.1 s.2.2 =
            some ⟨writeSite g.num_steps (ci, cj, ck) s.2.1 A.flux_data,
              writeSite g.num_steps (ci, cj, ck) s.2.2 A.value_data⟩ := by
          unfold addSite
          unfold normLoc at hc ⊢
          rw [hc]
        rw [hadd]
        exact ih ⟨x, hx2, hxn⟩ _

theorem normIdx_isSome {e c : Int} (h0 : -e ≤ c) (h1 : c < e) :
    (normIdx e c).isSome := by
  unfold normIdx
  by_cases h : 0 ≤ c ∧ c < e
  · rw [if_pos h]
    rfl
  · rw [if_neg h, if_pos ⟨h0, by omega⟩]
    rfl

theorem normLoc_isSome_of_wrap (g : ForcingFileGenerator) (s : Int × Int × Int)
    (h1 : -g.Nx ≤ s.1 ∧ s.1 < g.Nx) (h2 : -g.Ny ≤ s.2.1 ∧ s.2.1 < g.Ny)
    (h3 : -g.Nz ≤ s.2.2 ∧ s.2.2 < g.Nz) : (normLoc g s).isSome := by
  obtain ⟨a, ha⟩ := Option.isSome_iff_exists.mp (normIdx_isSome h1.1 h1.2)
  obtain ⟨b, hb⟩ := Option.isSome_iff_exists.mp (normIdx_isSome h2.1 h2.2)
  obtain ⟨c, hc⟩ := Option.isSome_iff_exists.mp (normIdx_isSome h3.1 h3.2)
  unfold normLoc
  rw [ha, hb, hc]
  rfl

theorem siteTriples_fst_mem (locs : List (Int × Int × Int)) (qs vs : List ℚ) :
    ∀ tr ∈ siteTriples locs qs vs, tr.1 ∈ locs := by
  intro tr htr
  obtain ⟨loc, qv⟩ := tr
  exact (List.mem_zip htr).1

theorem siteTriples_cover (locs : List (Int × Int × Int)) (qs vs : List ℚ)
    (hq : qs.length = locs.length) (hv : vs.length = locs.length) :
    ∀ s ∈ locs, ∃ tr ∈ siteTriples locs qs vs, tr.1 = s := by
  intro s hs
  obtain ⟨n, hn⟩ := List.mem_iff_get.mp hs
  have hnq : (n : Nat) < qs.length := by
    rw [hq]
    exact n.isLt
  have hnv : (n : Nat) < vs.length := by
    rw [hv]
    exact n.isLt
  refine ⟨(s, qs.get ⟨(n : Nat), hnq⟩, vs.get ⟨(n : Nat), hnv⟩), ?_, rfl⟩
  have h1 : locs.get? (n : Nat) = some s := by
    rw [List.get?_eq_get n.isLt]
    exact congrArg some hn
  apply List.get?_mem (n := (n : Nat))
  unfold siteTriples
  rw [List.get?_zip_eq_some]
  refine ⟨h1, ?_⟩
  rw [List.get?_zip_eq_some]
  exact ⟨List.get?_eq_get hnq, List.get?_eq_get hnv⟩

theorem foldl_lastHit_congr (g : ForcingFileGenerator) (i j k : Int) :
    ∀ ts : List ((Int × Int × Int) × ℚ × ℚ),
    (∀ s ∈ ts, normLoc g s.1 = some s.1) → ∀ acc : Option (ℚ × ℚ),
    ts.foldl (fun acc s =>
      if normLoc g s.1 = some (i, j, k) then some s.2 else acc) acc =
    ts.foldl (fun acc s => if s.1 = (i, j, k) then some s.2 else acc) acc := by
  intro ts
  induction ts with
  | nil =>
    intro h acc
    rfl
  | cons s ts ih =>
    intro h acc
    rw [List.foldl_cons, List.foldl_cons,
      ih (fun x hx => h x (List.mem_cons_of_mem s hx))]
    congr 1
    have hs := h s (List.mem_cons_self s ts)
    exact if_congr (by rw [hs, Option.some.injEq]) rfl rfl

theorem lastHit_eq_lastSite (g : ForcingFileGenerator) (i j k : Int)
    (ts : List ((Int × Int × Int) × ℚ × ℚ))
    (h : ∀ s ∈ ts, normLoc g s.1 = some s.1) :
    lastHit g i j k ts = lastSite i j k ts := by
  unfold lastHit lastSite
  exact foldl_lastHit_congr g i j k ts h none

theorem riverTracerLoop_ok (g : ForcingFileGenerator)
    (locs : List (Int × Int × Int)) (qs : List ℚ)
    (hnorm : ∀ s ∈ locs, (normLoc g s).isSome) :
    ∀ ts : List (String × List ℚ), ∃ fields,
      (riverTracerLoop g locs qs ts).2 = Except.ok fields ∧
      fields.length = ts.length ∧
      (∀ m : Nat, ∀ name : String, ∀ vs : List ℚ,
        ts.get? m = some (name, vs) →
        ∃ fld, fields.get? m = some (name, fld) ∧
        ∀ t k j i : Int, 0 ≤ t → t < g.num_steps →
          (fld.flux_data t k j i =
            (match lastHit g i j k (siteTriples locs qs vs) with
             | some p => p.1
             | none => 0)) ∧
          (fld.value_data t k j i =
            (match lastHit g i j k (siteTriples locs qs vs) with
             | some p => p.2
             | none => -999))) := by
  intro ts
  induction ts with
  | nil =>
    refine ⟨[], rfl, rfl, ?_⟩
    intro m name vs h
    cases h
  | cons p ts ih =>
    obtain ⟨name, vs⟩ := p
    have hn2 : ∀ s ∈ siteTriples locs qs vs, (normLoc g s.1).isSome :=
      fun s hs => hnorm s.1 (siteTriples_fst_mem locs qs vs s hs)
    obtain ⟨F, hF, hFprop⟩ := buildRiverSites_ok g (siteTriples locs qs vs) hn2
      ⟨fun _ _ _ _ => 0, fun _ _ _ _ => -999⟩
    obtain ⟨fields, hfields, hlen, hprop⟩ := ih
    refine ⟨(name, F) :: fields, ?_, by simp [hlen], ?_⟩
    · show (match buildRiverSites g ⟨fun _ _ _ _ => 0, fun _ _ _ _ => -999⟩
          (siteTriples locs qs vs) with
        | Except.ok F =>
          (REv.writeFlux name :: REv.writeValue name ::
            (riverTracerLoop g locs qs ts).1,
            Except.map (fun fs => (name, F) :: fs) (riverTracerLoop g locs qs ts).2)
        | Except.error e => ([], Except.error e)).2 = _
      rw [hF]
      show Except.map _ (riverTracerLoop g locs qs ts).2 = _
      rw [hfields]
      rfl
    · intro m nm vv hm
      cases m with
      | zero =>
        rw [List.get?_cons_zero, Option.some.injEq, Prod.mk.injEq] at hm
        refine ⟨F, by rw [List.get?_cons_zero, hm.1], ?_⟩
        intro t k j i h0 h1
        rw [← hm.2]
        exact hFprop t k j i h0 h1
      | succ m2 =>
        rw [List.get?_cons_succ] at hm
        obtain ⟨fld, hfld, hfldprop⟩ := hprop m2 nm vv hm
        exact ⟨fld, by rw [List.get?_cons_succ]; exact hfld, hfldprop⟩

theorem riverTracerLoop_indexError (g : ForcingFileGenerator)
    (locs : List (Int × Int × Int)) (qs : List ℚ)
    (hbad : ∃ s ∈ locs, normLoc g s = none) (name : String) (vs : List ℚ)
    (hq : qs.length = locs.length) (hv : vs.length = locs.length)
    (ts : List (String × List ℚ)) :
    riverTracerLoop g locs qs ((name, vs) :: ts) =
      ([], Except.error RiverError.indexError) := by
  obtain ⟨s, hs, hsn⟩ := hbad
  obtain ⟨tr, htr, htr1⟩ := siteTriples_cover locs qs vs hq hv s hs
  have herr := buildRiverSites_error g (siteTriples locs qs vs)
    ⟨tr, htr, by rw [htr1]; exact hsn⟩
    ⟨fun _ _ _ _ => 0, fun _ _ _ _ => -999⟩
  show (match buildRiverSites g ⟨fun _ _ _ _ => 0, fun _ _ _ _ => -999⟩
      (siteTriples locs qs vs) with
    | Except.ok F =>
      (REv.writeFlux name :: REv.writeValue name ::
        (riverTracerLoop g locs qs ts).1,
        Except.map (fun fs => (name, F) :: fs) (riverTracerLoop g locs qs ts).2)
    | Except.error e => ([], Except.error e)) = _
  rw [herr]

theorem normLoc_none_of_oob (g : ForcingFileGenerator) (s : Int × Int × Int)
    (hx : 0 ≤ g.Nx) (hy : 0 ≤ g.Ny) (hz : 0 ≤ g.Nz)
    (h : g.Nx ≤ s.1 ∨ g.Ny ≤ s.2.1 ∨ g.Nz ≤ s.2.2) : normLoc g s = none := by
  unfold normLoc
  rcases h with h | h | h
  · rw [normIdx_none_of_oob hx h]
  · rw [normIdx_none_of_oob hy h]
    cases normIdx g.Nx s.1 <;> rfl
  · rw [normIdx_none_of_oob hz h]
    cases normIdx g.Nx s.1 <;> cases normIdx g.Ny s.2.1 <;> rfl

theorem create_river_file_ok_path (g : ForcingFileGenerator)
    (locs : List (Int × Int × Int)) (props : List (String × List ℚ))
    (qs : List ℚ) (hq : List.lookup "discharge" props = some qs)
    (hqlen : qs.length = locs.length)
    (hlens : ∀ p ∈ props.filter (fun p => p.1 != "discharge"),
      p.2.length = locs.length) :
    create_river_file g locs props =
      (REv.createDataset :: REv.writeTimes ::
        (riverTracerLoop g locs qs
          (props.filter (fun p => p.1 != "discharge"))).1,
        (riverTracerLoop g locs qs
          (props.filter (fun p => p.1 != "discharge"))).2) := by
  unfold create_river_file
  rw [hq]
  dsimp only
  rw [if_pos hqlen]
  have hfind : (props.filter (fun p => p.1 != "discharge")).find?
      (fun p => p.2.length != locs.length) = none := by
    rw [List.find?_eq_none]
    intro x hx
    simp [hlens x hx]
  rw [hfind]

/-- C6: a river build in which the discharge count, or any tracer's value
count, differs from the site count fails with the MismatchedLengths assertion
— named 'discharge' or after the first offending tracer — and the trace shows
the failure happens after the dataset and time variable are written but
before any flux or value array is built. -/
theorem river_mismatched_lengths (g : ForcingFileGenerator)
    (locs : List (Int × Int × Int)) (props : List (String × List ℚ))
    (qs : List ℚ) (hq : List.lookup "discharge" props = some qs) :
    (qs.length ≠ locs.length →
      create_river_file g locs props =
        ([REv.createDataset, REv.writeTimes],
          Except.error (RiverError.mismatchedLengths "discharge"))) ∧
    (qs.length = locs.length →
      ∀ p : String × List ℚ,
        (props.filter (fun p => p.1 != "discharge")).find?
          (fun p => p.2.length != locs.length) = some p →
        p.2.length ≠ locs.length ∧ p ∈ props.filter (fun p => p.1 != "discharge") ∧
        create_river_file g locs props =
          ([REv.createDataset, REv.writeTimes],
            Except.error (RiverError.mismatchedLengths p.1))) := by
  constructor
  · intro hne
    unfold create_river_file
    rw [hq]
    dsimp only
    rw [if_neg hne]
  · intro heq p hfind
    refine ⟨?_, List.mem_of_find?_eq_some hfind, ?_⟩
    · have := List.find?_some hfind
      simpa using this
    · unfold create_river_file
      rw [hq]
      dsimp only
      rw [if_pos heq, hfind]

theorem river_mismatched_lengths_witness :
    create_river_file gEx [(0, 0, 0)] [("discharge", [1]), ("T", [3, 4])] =
      ([REv.createDataset, REv.writeTimes],
        Except.error (RiverError.mismatchedLengths "T")) :=
  ((river_mismatched_lengths gEx [(0, 0, 0)]
    [("discharge", [1]), ("T", [3, 4])] [1] (by decide)).2 (by decide)
    ("T", [3, 4]) (by decide)).2.2

/-- C5: for every river build with matching input lengths and in-bounds site
coordinates, each tracer's arrays satisfy: at a cell carrying at least one
site, flux is the discharge and value the tracer value of the last-indexed
site with those coordinates (later sites silently overwrite earlier ones);
at every other cell flux is 0.0 and value -999.0; identically for every time
step. -/
theorem river_placement_last_write (g : ForcingFileGenerator)
    (locs : List (Int × Int × Int)) (props : List (String × List ℚ))
    (qs : List ℚ) (hq : List.lookup "discharge" props = some qs)
    (hqlen : qs.length = locs.length)
    (hlens : ∀ p ∈ props.filter (fun p => p.1 != "discharge"),
      p.2.length = locs.length)
    (hbounds : ∀ s ∈ locs, 0 ≤ s.1 ∧ s.1 < g.Nx ∧ 0 ≤ s.2.1 ∧ s.2.1 < g.Ny ∧
      0 ≤ s.2.2 ∧ s.2.2 < g.Nz) :
    ∃ fields, (create_river_file g locs props).2 = Except.ok fields ∧
      fields.length = (props.filter (fun p => p.1 != "discharge")).length ∧
      ∀ m : Nat, ∀ name : String, ∀ vs : List ℚ,
        (props.filter (fun p => p.1 != "discharge")).get? m = some (name, vs) →
        ∃ fld, fields.get? m = some (name, fld) ∧
        ∀ t k j i : Int, 0 ≤ t → t < g.num_steps →
          (fld.flux_data t k j i =
            (match lastSite i j k (siteTriples locs qs vs) with
             | some p => p.1
             | none => 0)) ∧
          (fld.value_data t k j i =
            (match lastSite i j k (siteTriples locs qs vs) with
             | some p => p.2
             | none => -999)) := by
  have hnormAll : ∀ s ∈ locs, (normLoc g s).isSome := by
    intro s hs
    rw [normLoc_of_inbounds g s (hbounds s hs)]
    rfl
  obtain ⟨fields, hok, hlen, hprop⟩ := riverTracerLoop_ok g locs qs hnormAll
    (props.filter (fun p => p.1 != "discharge"))
  refine ⟨fields, ?_, hlen, ?_⟩
  · rw [create_river_file_ok_path g locs props qs hq hqlen hlens]
    exact hok
  · intro m name vs hm
    obtain ⟨fld, hfld, hfldprop⟩ := hprop m name vs hm
    refine ⟨fld, hfld, ?_⟩
    intro t k j i h0 h1
    have hnormEq : ∀ s ∈ siteTriples locs qs vs, normLoc g s.1 = some s.1 :=
      fun s hs => normLoc_of_inbounds g s.1
        (hbounds s.1 (siteTriples_fst_mem locs qs vs s hs))
    have hcell := hfldprop t k j i h0 h1
    rw [lastHit_eq_lastSite g i j k _ hnormEq] at hcell
    exact hcell

theorem river_placement_last_write_witness :
    ∃ fields,
      (create_river_file ⟨6, 6, 3, "x", 1, 1, [0]⟩ [(5, 5, 2)]
        [("discharge", [100]), ("T", [8])]).2 = Except.ok fields ∧
      fields.length = ([("discharge", [100]), ("T", [8])].filter
        (fun p => p.1 != "discharge")).length ∧
      ∀ m : Nat, ∀ name : String, ∀ vs : List ℚ,
        (([("discharge", [100]), ("T", [8])] :
          List (String × List ℚ)).filter
            (fun p => p.1 != "discharge")).get? m = some (name, vs) →
        ∃ fld, fields.get? m = some (name, fld) ∧
        ∀ t k j i : Int, 0 ≤ t →
          t < (⟨6, 6, 3, "x", 1, 1, [0]⟩ : ForcingFileGenerator).num_steps →
          (fld.flux_data t k j i =
            (match lastSite i j k (siteTriples [(5, 5, 2)] [100] vs) with
             | some p => p.1
             | none => 0)) ∧
          (fld.value_data t k j i =
            (match lastSite i j k (siteTriples [(5, 5, 2)] [100] vs) with
             | some p => p.2
             | none => -999)) :=
  river_placement_last_write ⟨6, 6, 3, "x", 1, 1, [0]⟩ [(5, 5, 2)]
    [("discharge", [100]), ("T", [8])] [100] (by decide) (by decide)
    (by decide) (by decide)

/-- C10: the river build performs no bounds validation on site coordinates.
With any site component at or beyond its axis extent (and at least one
tracer), the build fails with the numpy IndexError raised during array
assignment — the trace shows the dataset and time variable were already
created and written.  With every component within [-extent, extent), no error
is raised: each site silently writes its constant flux and tracer value at
its normalized cell, a negative component c wrapping to extent + c. -/
theorem river_no_bounds_validation :
    (∀ (g : ForcingFileGenerator) (locs : List (Int × Int × Int))
        (props : List (String × List ℚ)) (qs : List ℚ),
      0 ≤ g.Nx → 0 ≤ g.Ny → 0 ≤ g.Nz →
      List.lookup "discharge" props = some qs → qs.length = locs.length →
      (∀ p ∈ props.filter (fun p => p.1 != "discharge"),
        p.2.length = locs.length) →
      props.filter (fun p => p.1 != "discharge") ≠ [] →
      (∃ s ∈ locs, g.Nx ≤ s.1 ∨ g.Ny ≤ s.2.1 ∨ g.Nz ≤ s.2.2) →
      create_river_file g locs props =
        ([REv.createDataset, REv.writeTimes],
          Except.error RiverError.indexError)) ∧
    (∀ (g : ForcingFileGenerator) (locs : List (Int × Int × Int))
        (props : List (String × List ℚ)) (qs : List ℚ),
      List.lookup "discharge" props = some qs → qs.length = locs.length →
      (∀ p ∈ props.filter (fun p => p.1 != "discharge"),
        p.2.length = locs.length) →
      (∀ s ∈ locs, -g.Nx ≤ s.1 ∧ s.1 < g.Nx ∧ -g.Ny ≤ s.2.1 ∧ s.2.1 < g.Ny ∧
        -g.Nz ≤ s.2.2 ∧ s.2.2 < g.Nz) →
      ∃ fields, (create_river_file g locs props).2 = Except.ok fields ∧
        ∀ m : Nat, ∀ name : String, ∀ vs : List ℚ,
          (props.filter (fun p => p.1 != "discharge")).get? m =
            some (name, vs) →
          ∃ fld, fields.get? m = some (name, fld) ∧
          ∀ t k j i : Int, 0 ≤ t → t < g.num_steps →
            (fld.flux_data t k j i =
              (match lastHit g i j k (siteTriples locs qs vs) with
               | some p => p.1
               | none => 0)) ∧
            (fld.value_data t k j i =
              (match lastHit g i j k (siteTriples locs qs vs) with
               | some p => p.2
               | none => -999))) ∧
    (∀ e c : Int, -e ≤ c → c < 0 → normIdx e c = some (e + c)) := by
  refine ⟨?_, ?_, fun e c h0 h1 => normIdx_of_neg h0 h1⟩
  · intro g locs props qs hNx hNy hNz hq hqlen hlens hne hoob
    obtain ⟨p0, rest, hcons⟩ := List.exists_cons_of_ne_nil hne
    obtain ⟨name, vs⟩ := p0
    have hv : vs.length = locs.length :=
      hlens (name, vs) (by rw [hcons]; exact List.mem_cons_self _ _)
    have hbadn : ∃ s ∈ locs, normLoc g s = none := by
      obtain ⟨s, hs, hsoob⟩ := hoob
      exact ⟨s, hs, normLoc_none_of_oob g s hNx hNy hNz hsoob⟩
    have hloop := riverTracerLoop_indexError g locs qs hbadn name vs hqlen hv rest
    rw [create_river_file_ok_path g locs props qs hq hqlen hlens, hcons, hloop]
  · intro g locs props qs hq hqlen hlens hwrap
    have hnormAll : ∀ s ∈ locs, (normLoc g s).isSome := by
      intro s hs
      obtain ⟨w1, w2, w3, w4, w5, w6⟩ := hwrap s hs
      exact normLoc_isSome_of_wrap g s ⟨w1, w2⟩ ⟨w3, w4⟩ ⟨w5, w6⟩
    obtain ⟨fields, hok, hlen, hprop⟩ := riverTracerLoop_ok g locs qs hnormAll
      (props.filter (fun p => p.1 != "discharge"))
    refine ⟨fields, ?_, hprop⟩
    rw [create_river_file_ok_path g locs props qs hq hqlen hlens]
    exact hok

theorem river_no_bounds_validation_witness :
    (create_river_file ⟨2, 2, 2, "x", 1, 1, [0]⟩ [(5, 0, 0)]
        [("discharge", [1]), ("T", [3])] =
      ([REv.createDataset, REv.writeTimes],
        Except.error RiverError.indexError)) ∧
    (∃ fields,
      (create_river_file ⟨2, 2, 2, "x", 1, 1, [0]⟩ [(-1, 0, 0)]
        [("discharge", [1]), ("T", [3])]).2 = Except.ok fields ∧
      ∀ m : Nat, ∀ name : String, ∀ vs : List ℚ,
        (([("discharge", [1]), ("T", [3])] :
          List (String × List ℚ)).filter
            (fun p => p.1 != "discharge")).get? m = some (name, vs) →
        ∃ fld, fields.get? m = some (name, fld) ∧
        ∀ t k j i : Int, 0 ≤ t →
          t < (⟨2, 2, 2, "x", 1, 1, [0]⟩ : ForcingFileGenerator).num_steps →
          (fld.flux_data t k j i =
            (match lastHit ⟨2, 2, 2, "x", 1, 1, [0]⟩ i j k
                (siteTriples [(-1, 0, 0)] [1] vs) with
             | some p => p.1
             | none => 0)) ∧
          (fld.value_data t k j i =
            (match lastHit ⟨2, 2, 2, "x", 1, 1, [0]⟩ i j k
                (siteTriples [(-1, 0, 0)] [1] vs) with
             | some p => p.2
             | none => -999))) ∧
    normIdx 2 (-1) = some (2 + -1) :=
  ⟨river_no_bounds_validation.1 ⟨2, 2, 2, "x", 1, 1, [0]⟩ [(5, 0, 0)]
      [("discharge", [1]), ("T", [3])] [1] (by decide) (by decide) (by decide)
      (by decide) (by decide) (by decide) (by decide) (by decide),
    river_no_bounds_validation.2.1 ⟨2, 2, 2, "x", 1, 1, [0]⟩ [(-1, 0, 0)]
      [("discharge", [1]), ("T", [3])] [1] (by decide) (by decide) (by decide)
      (by decide),
    river_no_bounds_validation.2.2 2 (-1) (by decide) (by decide)⟩
